import Mathlib

/-!
# Verification of the browser-engineering-rust fetcher against its specification

This file gives a shallow embedding, in Lean 4, of the identifier parser
(`src/uri.rs`, `src/url.rs`, `src/main.rs`), the HTTP message codec and
redirect resolver (`src/request.rs`), and the response cache (`src/cache.rs`)
of the repository, and proves or refutes the specification's claims about them.

Modelling conventions:
* A Rust `String` / `&str` is modelled as a `List Char` (`RString`).  All the
  string operations the source uses (`split`, `split_once`, `starts_with`,
  `contains`, `trim`, `trim_start_matches`, ...) are defined below with the
  semantics of the corresponding Rust standard-library functions.
* Functions that can panic (`assert!`, `unwrap`, `expect`, out-of-bounds
  indexing) are modelled as `Option`-returning functions, `none` meaning the
  panic.
* Byte streams consisting of well-formed text are modelled as `List Char`;
  where the source counts bytes, the model counts UTF-8 byte lengths, so the
  two agree on every stream whose framing boundaries fall on character
  boundaries (all inputs considered by the specification do).
* Where byte-exactness matters (the SHA-256 cache fingerprint), strings are
  lowered to their UTF-8 bytes (`List Nat`) by an explicit encoder.
-/

/-- A Rust `String`, modelled as its list of characters. -/
abbrev RString := List Char

/-- Coerce a Lean string literal to the `RString` model. -/
def str (s : String) : RString := s.data

/-- Rust `str::split(pattern: char)`: splits on every occurrence of `c`;
an empty input yields `[""]`, a trailing separator yields a trailing `""`. -/
def splitOnChar (c : Char) : RString → List RString
  | [] => [[]]
  | x :: xs =>
    let rest := splitOnChar c xs
    if x = c then [] :: rest
    else
      match rest with
      | h :: t => (x :: h) :: t
      | [] => [[x]]

/-- Join a list of strings with separator character `c`
(inverse of `splitOnChar` on its image). -/
def joinChar (c : Char) : List RString → RString
  | [] => []
  | [x] => x
  | x :: xs => x ++ c :: joinChar c xs

/-- Rust `str::split_once(delimiter: char)`: splits at the first occurrence
of `c`, returning the parts before and after it; `none` if `c` is absent. -/
def splitOnceChar (c : Char) : RString → Option (RString × RString)
  | [] => none
  | x :: xs =>
    if x = c then some ([], xs)
    else (splitOnceChar c xs).map (fun p => (x :: p.1, p.2))

/-- Rust `str::contains(pattern: &str)`: substring containment. -/
def containsSubstr (needle : RString) : RString → Bool
  | [] => needle.isEmpty
  | x :: xs => needle.isPrefixOf (x :: xs) || containsSubstr needle xs

/-- Fuel-driven worker for `trimStartMatches`; the fuel only has to exceed
the number of strips, so the string length is always enough. -/
def trimStartAux (pat : RString) : Nat → RString → RString
  | 0, s => s
  | fuel + 1, s =>
    if pat ≠ [] ∧ pat.isPrefixOf s then trimStartAux pat fuel (s.drop pat.length)
    else s

/-- Rust `str::trim_start_matches(pattern: &str)`: repeatedly removes the
pattern from the front while it is a prefix. -/
def trimStartMatches (pat : RString) (s : RString) : RString :=
  trimStartAux pat s.length s

/-- Characters Rust's `str::trim` family removes (the ASCII part of the
Unicode `White_Space` class; the wire data in this development is ASCII). -/
def isRustWhitespace (c : Char) : Bool :=
  c = ' ' || c = '\t' || c = '\n' || c = '\r'

/-- Rust `str::trim_end`. -/
def trimEnd (s : RString) : RString :=
  (s.reverse.dropWhile isRustWhitespace).reverse

/-- Rust `str::trim`. -/
def trim (s : RString) : RString :=
  (s.dropWhile isRustWhitespace).reverse.dropWhile isRustWhitespace |>.reverse

/-- Decimal rendering of a natural number (Rust `u64::to_string` /
`Display for u16`). -/
def natToRStr (n : Nat) : RString := (Nat.repr n).data

/-- Value of one hexadecimal digit, `none` for a non-digit. -/
def hexDigitVal (c : Char) : Option Nat :=
  if '0' ≤ c ∧ c ≤ '9' then some (c.toNat - '0'.toNat)
  else if 'a' ≤ c ∧ c ≤ 'f' then some (c.toNat - 'a'.toNat + 10)
  else if 'A' ≤ c ∧ c ≤ 'F' then some (c.toNat - 'A'.toNat + 10)
  else none

/-- One accumulation step of hexadecimal digit parsing. -/
def hexStep (acc : Option Nat) (c : Char) : Option Nat :=
  match acc, hexDigitVal c with
  | some a, some d => some (a * 16 + d)
  | _, _ => none

/-- Rust `u64::from_str_radix(s, 16)`: an optional sign followed by at least
one hexadecimal digit.  (Overflow is not modelled; the chunk sizes in scope
are far below `2^64`.) -/
def parseHexU64 (s : RString) : Option Nat :=
  let digits := if s.head? = some '+' then s.drop 1 else s
  if digits.isEmpty then none
  else digits.foldl hexStep (some 0)

/-- Rust `str::parse::<u16>()`: an optional `+` sign followed by at least one
decimal digit, value at most `65535` (overflow is an error). -/
def parseU16 (s : RString) : Option Nat :=
  let digits := if s.head? = some '+' then s.drop 1 else s
  if digits.isEmpty then none
  else
    (digits.foldl
      (fun acc c =>
        match acc with
        | some a => if c.isDigit then some (a * 10 + (c.toNat - '0'.toNat)) else none
        | none => none)
      (some 0)).bind
      (fun n => if n ≤ 65535 then some n else none)

section UriRsSection

/-! ## `src/uri.rs` — the identifier parser the rest of the claims cite -/

namespace UriRs

/-- `enum URIScheme` of `src/uri.rs`. -/
inductive URIScheme where
  | Data
  | File
  | HTTP
  | HTTPS
  | ViewSourceHTTP
  | ViewSourceHTTPS
deriving DecidableEq, Repr

/-- `const SCHEMES: [&str; 6]` of `src/uri.rs` (in source order). -/
def SCHEMES : List RString :=
  [str "data", str "file", str "http", str "https",
   str "view-source:https", str "view-source:http"]

/-- `const HTTP_SCHEMES: [&str; 4]` of `src/uri.rs` (in source order). -/
def HTTP_SCHEMES : List RString :=
  [str "https", str "http", str "view-source:https", str "view-source:http"]

/-- The scheme list guarding the leading-`//` strip in `URI::parse`
(`[HTTP_SCHEME, HTTPS_SCHEME, FILE_SCHEME, VIEWSOURCE_HTTP_SCHEME,
VIEWSOURCE_HTTPS_SCHEME]`). -/
def STRIP_SCHEMES : List RString :=
  [str "http", str "https", str "file",
   str "view-source:http", str "view-source:https"]

/-- `URIScheme::from_str` of `src/uri.rs`: unknown strings default to
`HTTP`. -/
def URIScheme.from_str (value : RString) : URIScheme :=
  if value = str "data" then .Data
  else if value = str "file" then .File
  else if value = str "https" then .HTTPS
  else if value = str "http" then .HTTP
  else if value = str "view-source:https" then .ViewSourceHTTPS
  else if value = str "view-source:http" then .ViewSourceHTTP
  else .HTTP

/-- `struct URI` of `src/uri.rs`: a flat record; note that host and port are
plain strings (empty for schemes without an authority) — there is no
`Option`-valued authority in this version of the type. -/
structure URI where
  scheme : URIScheme
  hostname : RString
  path : RString
  port : RString
deriving DecidableEq, Repr

/-- `Regex::new(r"^(http|https|file|data|view-source):/?/?").is_match(url)`:
the trailing `/?/?` is optional, so the regex matches exactly when the input
starts with one of the five scheme words followed by a colon. -/
def scheme_regexp_matches (s : RString) : Bool :=
  (str "http:").isPrefixOf s || (str "https:").isPrefixOf s ||
  (str "file:").isPrefixOf s || (str "data:").isPrefixOf s ||
  (str "view-source:").isPrefixOf s

end UriRs

/-- The scheme-accumulation loop shared verbatim by `URI::parse`
(`src/uri.rs`), `URL::parse` (`src/url.rs`) and `parse_url` (`src/main.rs`)
(`for scheme_part in url_copy.split(":")`): parts are re-joined with `:` into
`prev` until the accumulated string is in `schemes`; the result is that
scheme together with the remaining parts re-joined with `:`.  `none` models
the `assert!(scheme_found)` panic. -/
def find_scheme (schemes : List RString) : List RString → RString → Option (RString × RString)
  | [], _ => none
  | p :: ps, prev =>
    let prev2 := if prev.length > 0 then prev ++ ':' :: p else prev ++ p
    if schemes.contains prev2 then some (prev2, joinChar ':' ps)
    else find_scheme schemes ps prev2

namespace UriRs

/-- The scheme-dispatch second half of `URI::parse` of `src/uri.rs`
(the `if HTTP_SCHEMES.contains(...) ... else if ... else ...` chain run
after the scheme block has produced `scheme` and `url_copy`). -/
def URI.parse_tail (scheme url_copy : RString) : URI :=
  if HTTP_SCHEMES.contains scheme then
    let hp := (splitOnceChar '/' url_copy).getD (url_copy, [])
    let port0 := if containsSubstr (str "https") scheme then str "443" else str "80"
    let hostname := hp.1
    let path := hp.2
    let hn_port :=
      if hostname.contains ':' then
        let parts := splitOnChar ':' hostname
        (parts.getD 0 [], parts.getD 1 [])
      else (hostname, port0)
    { scheme := URIScheme.from_str scheme
      hostname := hn_port.1
      path := '/' :: path
      port := hn_port.2 }
  else if scheme = str "file" then
    { scheme := URIScheme.from_str scheme, hostname := [],
      path := url_copy, port := [] }
  else if scheme = str "data" then
    { scheme := URIScheme.from_str scheme, hostname := [],
      path := url_copy, port := [] }
  else
    { scheme := URIScheme.from_str scheme, hostname := [],
      path := url_copy, port := [] }

/-- `URI::parse` of `src/uri.rs`.  Returns `none` exactly when the source
panics (the `assert!(scheme_found)` for inputs that match the scheme regexp
but whose `:`-accumulated prefix never equals a recognized scheme). -/
def URI.parse (url : RString) : Option URI :=
  match (if scheme_regexp_matches url then
      match find_scheme SCHEMES (splitOnChar ':' url) [] with
      | none => none
      | some (scheme, rest) =>
        some (scheme,
          if STRIP_SCHEMES.contains scheme && (str "//").isPrefixOf rest
          then rest.drop 2 else rest)
    else some (str "http", url) : Option (RString × RString)) with
  | none => none
  | some (scheme, url_copy) => some (URI.parse_tail scheme url_copy)

end UriRs

end UriRsSection

section UrlRsSection

/-! ## `src/url.rs` — an earlier copy of the same parser -/

namespace UrlRs

/-- `enum URIScheme` of `src/url.rs`. -/
inductive URIScheme where
  | Data
  | File
  | HTTP
  | HTTPS
  | ViewSourceHTTP
  | ViewSourceHTTPS
deriving DecidableEq, Repr

/-- The `_schemes` vector of `URL::parse` (in source order). -/
def schemes : List RString :=
  [str "http", str "https", str "file", str "data",
   str "view-source:http", str "view-source:https"]

/-- The scheme list guarding the leading-`//` strip in `URL::parse`. -/
def STRIP_SCHEMES : List RString :=
  [str "http", str "https", str "file",
   str "view-source:http", str "view-source:https"]

/-- The scheme list selecting the authority branch of `URL::parse`. -/
def HTTP_SCHEMES : List RString :=
  [str "http", str "https", str "view-source:http", str "view-source:https"]

/-- `URIScheme::from_str` of `src/url.rs`. -/
def URIScheme.from_str (value : RString) : URIScheme :=
  if value = str "data" then .Data
  else if value = str "file" then .File
  else if value = str "https" then .HTTPS
  else if value = str "http" then .HTTP
  else if value = str "view-source:https" then .ViewSourceHTTPS
  else if value = str "view-source:http" then .ViewSourceHTTP
  else .HTTP

/-- `struct URL` of `src/url.rs`. -/
structure URL where
  scheme : URIScheme
  hostname : RString
  path : RString
  port : RString
deriving DecidableEq, Repr

/-- The scheme-dispatch second half of `URL::parse` of `src/url.rs`. -/
def URL.parse_tail (scheme url_copy : RString) : URL :=
  if HTTP_SCHEMES.contains scheme then
    let hp := (splitOnceChar '/' url_copy).getD (url_copy, [])
    let port0 := if containsSubstr (str "https") scheme then str "443" else str "80"
    let hostname := hp.1
    let path := hp.2
    let hn_port :=
      if hostname.contains ':' then
        let parts := splitOnChar ':' hostname
        (parts.getD 0 [], parts.getD 1 [])
      else (hostname, port0)
    { scheme := URIScheme.from_str scheme
      hostname := hn_port.1
      path := '/' :: path
      port := hn_port.2 }
  else if scheme = str "file" then
    { scheme := URIScheme.from_str scheme, hostname := [],
      path := url_copy, port := [] }
  else if scheme = str "data" then
    { scheme := URIScheme.from_str scheme, hostname := [],
      path := url_copy, port := [] }
  else
    { scheme := URIScheme.from_str scheme, hostname := [],
      path := url_copy, port := [] }

/-- `URL::parse` of `src/url.rs` (same regexp, same scheme-accumulation
loop, same branches as `URI::parse` of `src/uri.rs`, with the constant
lists in this file's order). -/
def URL.parse (url : RString) : Option URL :=
  match (if UriRs.scheme_regexp_matches url then
      match find_scheme schemes (splitOnChar ':' url) [] with
      | none => none
      | some (scheme, rest) =>
        some (scheme,
          if STRIP_SCHEMES.contains scheme && (str "//").isPrefixOf rest
          then rest.drop 2 else rest)
    else some (str "http", url) : Option (RString × RString)) with
  | none => none
  | some (scheme, url_copy) => some (URL.parse_tail scheme url_copy)

/-- Constructor-wise correspondence with the `src/uri.rs` scheme enum. -/
def URIScheme.toUriRs : URIScheme → UriRs.URIScheme
  | .Data => .Data
  | .File => .File
  | .HTTP => .HTTP
  | .HTTPS => .HTTPS
  | .ViewSourceHTTP => .ViewSourceHTTP
  | .ViewSourceHTTPS => .ViewSourceHTTPS

end UrlRs

section MainRsSection

/-! ## `fn parse_url` of `src/main.rs` — the third copy of the parser -/

namespace MainRs

/-- `enum HttpScheme` of `src/main.rs`. -/
inductive HttpScheme where
  | Data
  | File
  | HTTP
  | HTTPS
  | ViewSourceHTTP
  | ViewSourceHTTPS
deriving DecidableEq, Repr

/-- `HttpScheme::from_str` of `src/main.rs`. -/
def HttpScheme.from_str (value : RString) : HttpScheme :=
  if value = str "data" then .Data
  else if value = str "file" then .File
  else if value = str "https" then .HTTPS
  else if value = str "http" then .HTTP
  else if value = str "view-source:https" then .ViewSourceHTTPS
  else if value = str "view-source:http" then .ViewSourceHTTP
  else .HTTP

/-- `struct URL` of `src/main.rs`. -/
structure URL where
  scheme : HttpScheme
  hostname : RString
  path : RString
  port : RString
deriving DecidableEq, Repr

/-- The scheme-dispatch second half of `fn parse_url` of `src/main.rs`. -/
def parse_url_tail (scheme url_copy : RString) : URL :=
  if UrlRs.HTTP_SCHEMES.contains scheme then
    let hp := (splitOnceChar '/' url_copy).getD (url_copy, [])
    let port0 := if containsSubstr (str "https") scheme then str "443" else str "80"
    let hostname := hp.1
    let path := hp.2
    let hn_port :=
      if hostname.contains ':' then
        let parts := splitOnChar ':' hostname
        (parts.getD 0 [], parts.getD 1 [])
      else (hostname, port0)
    { scheme := HttpScheme.from_str scheme
      hostname := hn_port.1
      path := '/' :: path
      port := hn_port.2 }
  else if scheme = str "file" then
    { scheme := HttpScheme.from_str scheme, hostname := [],
      path := url_copy, port := [] }
  else if scheme = str "data" then
    { scheme := HttpScheme.from_str scheme, hostname := [],
      path := url_copy, port := [] }
  else
    { scheme := HttpScheme.from_str scheme, hostname := [],
      path := url_copy, port := [] }

/-- `fn parse_url` of `src/main.rs`.  Identical to `URL::parse` of
`src/url.rs` (the loop there iterates `full_url.split(spliter)` instead of
`url_copy.split(spliter)`, but `url_copy` still equals `full_url` at that
point), with the same constant lists. -/
def parse_url (full_url : RString) : Option URL :=
  match (if UriRs.scheme_regexp_matches full_url then
      match find_scheme UrlRs.schemes (splitOnChar ':' full_url) [] with
      | none => none
      | some (scheme, rest) =>
        some (scheme,
          if UrlRs.STRIP_SCHEMES.contains scheme && (str "//").isPrefixOf rest
          then rest.drop 2 else rest)
    else some (str "http", full_url) : Option (RString × RString)) with
  | none => none
  | some (scheme, url_copy) => some (parse_url_tail scheme url_copy)

/-- Constructor-wise correspondence with the `src/uri.rs` scheme enum. -/
def HttpScheme.toUriRs : HttpScheme → UriRs.URIScheme
  | .Data => .Data
  | .File => .File
  | .HTTP => .HTTP
  | .HTTPS => .HTTPS
  | .ViewSourceHTTP => .ViewSourceHTTP
  | .ViewSourceHTTPS => .ViewSourceHTTPS

end MainRs

end MainRsSection

end UrlRsSection

section Sha256Section

/-! ## UTF-8 encoding and SHA-256

`src/cache.rs` feeds UTF-8 string bytes into `sha2::Sha256`.  The encoder
below is the standard UTF-8 encoding of a unicode scalar value; `sha256` is
the FIPS 180-4 algorithm as computed by the `sha2` crate, over byte lists,
with 32-bit words represented as `Nat` reduced mod `2^32`. -/

/-- UTF-8 encoding of one character (unicode scalar value). -/
def utf8EncodeChar (c : Char) : List Nat :=
  let n := c.toNat
  if n < 0x80 then [n]
  else if n < 0x800 then
    [0xC0 ||| (n >>> 6), 0x80 ||| (n &&& 0x3F)]
  else if n < 0x10000 then
    [0xE0 ||| (n >>> 12), 0x80 ||| ((n >>> 6) &&& 0x3F), 0x80 ||| (n &&& 0x3F)]
  else
    [0xF0 ||| (n >>> 18), 0x80 ||| ((n >>> 12) &&& 0x3F),
     0x80 ||| ((n >>> 6) &&& 0x3F), 0x80 ||| (n &&& 0x3F)]

/-- UTF-8 bytes of a string (Rust `str::as_bytes`). -/
def utf8Bytes (s : RString) : List Nat := s.flatMap utf8EncodeChar

/-- `2^32`, the word modulus of SHA-256. -/
def MOD32 : Nat := 4294967296

/-- Right rotation of a 32-bit word. -/
def rotr32 (x n : Nat) : Nat := ((x >>> n) ||| (x <<< (32 - n))) % MOD32

/-- The 64 SHA-256 round constants of FIPS 180-4 (decimal). -/
def shaK : List Nat :=
  [1116352408, 1899447441, 3049323471, 3921009573, 961987163, 1508970993,
   2453635748, 2870763221, 3624381080, 310598401, 607225278, 1426881987,
   1925078388, 2162078206, 2614888103, 3248222580, 3835390401, 4022224774,
   264347078, 604807628, 770255983, 1249150122, 1555081692, 1996064986,
   2554220882, 2821834349, 2952996808, 3210313671, 3336571891, 3584528711,
   113926993, 338241895, 666307205, 773529912, 1294757372, 1396182291,
   1695183700, 1986661051, 2177026350, 2456956037, 2730485921, 2820302411,
   3259730800, 3345764771, 3516065817, 3600352804, 4094571909, 275423344,
   430227734, 506948616, 659060556, 883997877, 958139571, 1322822218,
   1537002063, 1747873779, 1955562222, 2024104815, 2227730452, 2361852424,
   2428436474, 2756734187, 3204031479, 3329325298]

/-- The SHA-256 initial hash value (decimal). -/
def shaH0 : List Nat :=
  [1779033703, 3144134277, 1013904242, 2773480762,
   1359893119, 2600822924, 528734635, 1541459225]

/-- Big-endian 8-byte rendering of a natural number. -/
def be64 (n : Nat) : List Nat :=
  [(n >>> 56) % 256, (n >>> 48) % 256, (n >>> 40) % 256, (n >>> 32) % 256,
   (n >>> 24) % 256, (n >>> 16) % 256, (n >>> 8) % 256, n % 256]

/-- SHA-256 message padding: `0x80`, zeros to 56 mod 64, then the bit length
as a big-endian 64-bit integer. -/
def shaPad (msg : List Nat) : List Nat :=
  msg ++ 0x80 :: List.replicate ((119 - msg.length % 64) % 64) 0
      ++ be64 (msg.length * 8)

/-- Fuel-driven worker for `chunks64` (the fuel only has to exceed the
number of blocks, so the byte count is always enough). -/
def chunks64Aux : Nat → List Nat → List (List Nat)
  | 0, _ => []
  | _, [] => []
  | fuel + 1, x :: xs => (x :: xs).take 64 :: chunks64Aux fuel ((x :: xs).drop 64)

/-- Split a byte list into 64-byte blocks. -/
def chunks64 (l : List Nat) : List (List Nat) := chunks64Aux l.length l

/-- The sixteen big-endian 32-bit words of one 64-byte block. -/
def wordsOfBlock : List Nat → List Nat
  | b0 :: b1 :: b2 :: b3 :: rest =>
    (b0 <<< 24 ||| b1 <<< 16 ||| b2 <<< 8 ||| b3) :: wordsOfBlock rest
  | _ => []

/-- One step of the SHA-256 message-schedule extension. -/
def extendStep (w : List Nat) : List Nat :=
  let i := w.length
  let w15 := w.getD (i - 15) 0
  let w2 := w.getD (i - 2) 0
  let w16 := w.getD (i - 16) 0
  let w7 := w.getD (i - 7) 0
  let s0 := (rotr32 w15 7) ^^^ (rotr32 w15 18) ^^^ (w15 >>> 3)
  let s1 := (rotr32 w2 17) ^^^ (rotr32 w2 19) ^^^ (w2 >>> 10)
  w ++ [(w16 + s0 + w7 + s1) % MOD32]

/-- Message schedule: extend the 16 words of a block to 64. -/
def extendW (w : List Nat) : List Nat :=
  (List.range 48).foldl (fun acc _ => extendStep acc) w

/-- The SHA-256 working state. -/
structure ShaState where
  a : Nat
  b : Nat
  c : Nat
  d : Nat
  e : Nat
  f : Nat
  g : Nat
  h : Nat
deriving Repr, DecidableEq

/-- One SHA-256 compression round. -/
def shaRound (st : ShaState) (kw : Nat × Nat) : ShaState :=
  let s1 := (rotr32 st.e 6) ^^^ (rotr32 st.e 11) ^^^ (rotr32 st.e 25)
  let ch := (st.e &&& st.f) ^^^ ((0xFFFFFFFF ^^^ st.e) &&& st.g)
  let temp1 := (st.h + s1 + ch + kw.1 + kw.2) % MOD32
  let s0 := (rotr32 st.a 2) ^^^ (rotr32 st.a 13) ^^^ (rotr32 st.a 22)
  let maj := (st.a &&& st.b) ^^^ (st.a &&& st.c) ^^^ (st.b &&& st.c)
  let temp2 := (s0 + maj) % MOD32
  { a := (temp1 + temp2) % MOD32, b := st.a, c := st.b, d := st.c,
    e := (st.d + temp1) % MOD32, f := st.e, g := st.f, h := st.g }

/-- Compress one 64-byte block into the running hash value. -/
def shaBlock (hv : List Nat) : List Nat → List Nat := fun block =>
  let w := extendW (wordsOfBlock block)
  let init : ShaState :=
    { a := hv.getD 0 0, b := hv.getD 1 0, c := hv.getD 2 0, d := hv.getD 3 0,
      e := hv.getD 4 0, f := hv.getD 5 0, g := hv.getD 6 0, h := hv.getD 7 0 }
  let fin := (shaK.zip w).foldl shaRound init
  [(hv.getD 0 0 + fin.a) % MOD32, (hv.getD 1 0 + fin.b) % MOD32,
   (hv.getD 2 0 + fin.c) % MOD32, (hv.getD 3 0 + fin.d) % MOD32,
   (hv.getD 4 0 + fin.e) % MOD32, (hv.getD 5 0 + fin.f) % MOD32,
   (hv.getD 6 0 + fin.g) % MOD32, (hv.getD 7 0 + fin.h) % MOD32]

/-- Big-endian 4-byte rendering of a 32-bit word. -/
def be32 (n : Nat) : List Nat :=
  [(n >>> 24) % 256, (n >>> 16) % 256, (n >>> 8) % 256, n % 256]

/-- SHA-256 of a byte list, as the 32-byte digest. -/
def sha256 (msg : List Nat) : List Nat :=
  ((chunks64 (shaPad msg)).foldl shaBlock shaH0).flatMap be32

/-- Uppercase hexadecimal digit. -/
def hexCharUpper (n : Nat) : Char :=
  if n < 10 then Char.ofNat ('0'.toNat + n) else Char.ofNat ('A'.toNat + n - 10)

/-- Uppercase, zero-padded hex rendering of a byte list
(Rust `format!("{:X}", digest)` on a `GenericArray<u8, 32>`). -/
def hexUpper (bytes : List Nat) : RString :=
  bytes.flatMap (fun b => [hexCharUpper (b / 16), hexCharUpper (b % 16)])

end Sha256Section

section ReqUriSection

/-! ## The authority-based `URI` used by `src/request.rs` and `src/cache.rs`

`src/request.rs` imports `crate::uri::{Scheme, URI}` with an
`authority: Option<Authority>` field and an `as_str` method, but the
`src/uri.rs` present in the repository is an older flat version without
them.  The missing definitions are therefore modelled from the spec
(§3 Data Model, §4.1 Identifier Parser, §4.4 fingerprint). -/

namespace ReqUri

/-- Modelled from the spec: the closed scheme enumeration of the Identifier
data model (view-source is a flag overlay, not a fifth scheme). -/
inductive Scheme where
  | HTTP
  | HTTPS
  | File
  | Data
deriving DecidableEq, Repr

/-- Modelled from the spec: the exhaustive scheme-to-string mapping
(`Scheme::as_str`, used by `request.rs` as the absolute-Location test). -/
def Scheme.as_str : Scheme → RString
  | .HTTP => str "http"
  | .HTTPS => str "https"
  | .File => str "file"
  | .Data => str "data"

/-- Modelled from the spec: the authority component
(host, port, optional userinfo). -/
structure Authority where
  host : RString
  port : Nat
  userinfo : Option RString
deriving DecidableEq, Repr

/-- Modelled from the spec: the Identifier — scheme, optional authority,
path, and the `"view-source"` flag. -/
structure URI where
  scheme : Scheme
  authority : Option Authority
  path : RString
  viewSource : Bool
deriving DecidableEq, Repr

/-- A non-empty all-digit decimal port (spec: parse failure if the explicit
port is non-numeric). -/
def parsePort (s : RString) : Option Nat :=
  if s.isEmpty then none
  else if s.all Char.isDigit then
    some (s.foldl (fun acc c => acc * 10 + (c.toNat - '0'.toNat)) 0)
  else none

/-- Fuel-driven worker for `URI.parse` (the recursion is the view-source
wrapper of §4.1; every unwrapping strictly shortens the input, so the input
length is enough fuel). -/
def parseAux : Nat → RString → Option URI
  | 0, _ => none
  | fuel + 1, text =>
    match splitOnceChar ':' text with
    | none => none
    | some (schemeTok, rest) =>
      if schemeTok = str "view-source" then
        (parseAux fuel rest).map (fun u => { u with viewSource := true })
      else if schemeTok = str "http" ∨ schemeTok = str "https" then
        let rest := if (str "//").isPrefixOf rest then rest.drop 2 else rest
        let hp := (splitOnceChar '/' rest).getD (rest, [])
        let defaultPort := if schemeTok = str "https" then 443 else 80
        let scheme : Scheme := if schemeTok = str "https" then .HTTPS else .HTTP
        match splitOnceChar ':' hp.1 with
        | none =>
          some { scheme, authority := some ⟨hp.1, defaultPort, none⟩,
                 path := '/' :: hp.2, viewSource := false }
        | some (host, portStr) =>
          (parsePort portStr).map
            (fun p => { scheme, authority := some ⟨host, p, none⟩,
                        path := '/' :: hp.2, viewSource := false })
      else if schemeTok = str "file" then
        let rest := if (str "//").isPrefixOf rest then rest.drop 2 else rest
        some { scheme := .File, authority := none, path := rest, viewSource := false }
      else if schemeTok = str "data" then
        some { scheme := .Data, authority := none, path := rest, viewSource := false }
      else none

/-- Modelled from the spec: `parse(text) -> Identifier` of §4.1 — split at
the first scheme-delimiting colon, dispatch on the recognized scheme set
(`none` models the `MalformedIdentifier` failure), strip an optional leading
`//` for http/https/file, split host-part and path at the first `/`, default
port 80/443, explicit port must be numeric, path re-prefixed with `/`;
`view-source:` recursively parses the remainder and overlays the flag. -/
def URI.parse (text : RString) : Option URI := parseAux text.length text

/-- Modelled from the spec: the canonical-request string fed to the cache
hash (§4.4): URL path bytes plus, when present, authority host and port
bytes. -/
def URI.as_str (u : URI) : RString :=
  u.path ++ (match u.authority with
             | some a => a.host ++ natToRStr a.port
             | none => [])

end ReqUri

end ReqUriSection

section RequestRsSection

/-! ## `src/request.rs` — requests, redirect resolution -/

namespace RequestRs

/-- `enum HTTPMethod` of `src/request.rs`. -/
inductive HTTPMethod where
  | CONNECT
  | DELETE
  | GET
  | HEAD
  | OPTIONS
  | POST
  | PUT
  | TRACE
deriving DecidableEq, Repr

/-- `struct HTTPRequest` of `src/request.rs`.  The header `HashMap` is
modelled as an association list in insertion order (`HashMap` iteration
order is unspecified in Rust; no claim in scope depends on it). -/
structure HTTPRequest where
  url : ReqUri.URI
  http_version : RString
  method : HTTPMethod
  headers : List (RString × RString)
  data : RString
deriving DecidableEq, Repr

/-- `struct HTTPResponse` of `src/request.rs`. -/
structure HTTPResponse where
  http_version : RString
  status_code : Nat
  status_message : RString
  headers : List (RString × RString)
  data : RString
deriving DecidableEq, Repr

/-- `HashMap::get` on the association-list model. -/
def headersGet (hs : List (RString × RString)) (k : RString) : Option RString :=
  (hs.find? (fun kv => kv.1 == k)).map (·.2)

/-- `HashMap::insert` on the association-list model: replaces the value of
an existing key (last insert wins), otherwise appends. -/
def headersInsert (hs : List (RString × RString)) (k v : RString) :
    List (RString × RString) :=
  if hs.any (fun kv => kv.1 == k) then
    hs.map (fun kv => if kv.1 == k then (k, v) else kv)
  else hs ++ [(k, v)]

/-- `Request::build_default_headers` of `src/request.rs`; `none` models the
`.expect("No authority")` panic. -/
def build_default_headers (url : ReqUri.URI) : Option (List (RString × RString)) :=
  url.authority.map (fun a =>
    [(str "Host", a.host),
     (str "Connection", str "close"),
     (str "User-Agent", str "Bored Browser"),
     (str "Accept-Encoding", str "gzip")])

/-- Index (in characters; the source uses bytes, which agree on ASCII
paths) of the last occurrence of `c` (Rust `str::rfind(char)`). -/
def rfindChar (c : Char) (s : RString) : Option Nat :=
  match s.reverse.findIdx? (· = c) with
  | some j => some (s.length - 1 - j)
  | none => none

/-- `Request::build_request_from_redirect_response` of `src/request.rs`.
`none` models the panics (`expect("Redirect response without Location
header")`, `expect("No slash")`) and a failing re-parse of an absolute
Location. -/
def build_request_from_redirect_response (request : HTTPRequest)
    (response : HTTPResponse) : Option HTTPRequest :=
  match headersGet response.headers (str "Location") with
  | none => none
  | some location_header =>
    if (ReqUri.Scheme.HTTP.as_str).isPrefixOf location_header then
      (ReqUri.URI.parse location_header).map
        (fun new_url => { request with url := new_url })
    else if request.url.path.isEmpty then
      some { request with url := { request.url with path := location_header } }
    else
      match rfindChar '/' request.url.path with
      | none => none
      | some last_slash_index =>
        some { request with url :=
          { request.url with
            path := request.url.path.take last_slash_index ++ location_header } }

/-- Outcome of `Request::send`. -/
inductive SendResult where
  | success (r : HTTPResponse)
  | ioError
  | panicTooManyRedirects
  | panic
deriving DecidableEq, Repr

/-- The redirect loop of `Request::send` (`src/request.rs`, lines 352–378).
The transport plus response parser is scripted as a list: each element is
the `parse_http_response` result of one `make_request` (`none` = an `Err`
parse result, on which the source retries the same request).  An empty
script models a blocking transport failure (`ioError`); `panic` models the
`expect`/`unwrap`/`panic!` calls inside `make_request` and
`build_request_from_redirect_response`; `panicTooManyRedirects` models
`panic!("Exceeded maximum redirect count.")`. -/
def sendLoop (request : HTTPRequest) (script : List (Option HTTPResponse))
    (redirect_count : Nat) : SendResult :=
  if redirect_count < 5 then
    match script with
    | [] => .ioError
    | parsed :: rest =>
      if request.url.authority.isNone then .panic
      else if request.url.scheme = .HTTPS ∨ request.url.scheme = .HTTP then
        match parsed with
        | some response =>
          if response.status_code < 300 ∨ response.status_code > 399 then
            .success response
          else
            match build_request_from_redirect_response request response with
            | none => .panic
            | some request' => sendLoop request' rest (redirect_count + 1)
        | none => sendLoop request rest (redirect_count + 1)
      else .panic
  else .panicTooManyRedirects

/-- `Request::send` of `src/request.rs`: build the initial GET request with
the default headers, then run the redirect loop with `redirect_count = 0`. -/
def send (url : ReqUri.URI) (script : List (Option HTTPResponse)) : SendResult :=
  match build_default_headers url with
  | none => .panic
  | some headers =>
    sendLoop
      { url := url, data := [], http_version := str "1.1",
        headers := headers, method := .GET }
      script 0

end RequestRs

end RequestRsSection

section CacheRsSection

/-! ## `src/cache.rs` — the response cache -/

namespace CacheRs

/-- `struct Item` of `src/cache.rs`. -/
structure Item where
  expiry : Nat
  path_string : RString
deriving DecidableEq, Repr

/-- `struct Cache` of `src/cache.rs` (the in-memory index). -/
structure Cache where
  items : List Item
deriving DecidableEq, Repr

/-- The cache directory on disk: file name to file contents (bytes). -/
structure Disk where
  files : List (RString × List Nat)
deriving DecidableEq, Repr

/-- Contents of a file on the model disk. -/
def Disk.read (d : Disk) (name : RString) : Option (List Nat) :=
  (d.files.find? (fun f => f.1 == name)).map (·.2)

/-- `Cache::write_file` / `write_to_cache_control` open their target with
`OpenOptions::new().write(true).create(true)` — `write(true)` without
`truncate(true)` — and then `write_all`: the new bytes overwrite the file
from position 0, but any old bytes beyond the new length survive. -/
def Disk.writeNoTrunc (d : Disk) (name : RString) (data : List Nat) : Disk :=
  match d.read name with
  | none => { files := d.files ++ [(name, data)] }
  | some old =>
    { files := d.files.map
        (fun f => if f.1 == name then (name, data ++ old.drop data.length) else f) }

/-- `fn hash_from` of `src/cache.rs`: SHA-256 over the request URL's
`as_str` bytes followed by each header rendered as `"{key}: {value}"`, in
iteration order, hex-encoded uppercase (`format!("{:X}", ...)`). -/
def hash_from (request : RequestRs.HTTPRequest) : RString :=
  hexUpper (sha256
    (utf8Bytes request.url.as_str ++
     request.headers.flatMap
       (fun kv => utf8Bytes (kv.1 ++ str ": " ++ kv.2))))

/-- One line of the control file (`format!("{};{}", expiry, path)`). -/
def controlLine (it : Item) : RString := natToRStr it.expiry ++ ';' :: it.path_string

/-- `Cache::write_to_cache_control`: all items joined with `\n`. -/
def renderControl (items : List Item) : List Nat :=
  utf8Bytes (joinChar '\n' (items.map controlLine))

/-- Errors of `Cache::extract` (`io::Error` kinds in the source; `panic`
models the `read_file` `unwrap` on a missing body file). -/
inductive ExtractErr where
  | NotFound
  | UnsupportedMethod
  | readPanic
deriving DecidableEq, Repr

/-- `Cache::extract` of `src/cache.rs`: only `GET` is served; a linear scan
of the in-memory items for a matching fingerprint; hit reads the body file,
miss is `ErrorKind::NotFound`, any other method is
`ErrorKind::InvalidInput`. -/
def Cache.extract (c : Cache) (d : Disk) (request : RequestRs.HTTPRequest) :
    Except ExtractErr (List Nat) :=
  match request.method with
  | .GET =>
    match c.items.find? (fun item => item.path_string == hash_from request) with
    | some item =>
      match d.read item.path_string with
      | some bytes => .ok bytes
      | none => .error .readPanic
    | none => .error .NotFound
  | _ => .error .UnsupportedMethod

/-- `Cache::insert` of `src/cache.rs`: write the body file named by the
fingerprint, push the item, rewrite the control file. -/
def Cache.insert (c : Cache) (d : Disk) (request : RequestRs.HTTPRequest)
    (response : List Nat) (expiry : Nat) : Cache × Disk :=
  let file_name_hash := hash_from request
  let d := d.writeNoTrunc file_name_hash response
  let c : Cache := { items := c.items ++ [{ expiry, path_string := file_name_hash }] }
  let d := d.writeNoTrunc (str ".control") (renderControl c.items)
  (c, d)

end CacheRs

end CacheRsSection

section CodecSection

/-! ## `Request::parse_http_response` of `src/request.rs` — the response codec

The wire is modelled as a `List Char`; where the source counts bytes
(`take(bytes_to_read)`, the 2-byte spacing read) the model counts UTF-8
byte lengths, which agrees with the source on every stream whose chunk
boundaries fall on character boundaries. -/

/-- Rust `BufRead::read_line`: everything up to and including the first
`\n` (or the whole rest at EOF); returns the line and the remainder. -/
def readLine : RString → RString × RString
  | [] => ([], [])
  | c :: cs =>
    if c = '\n' then ([c], cs)
    else
      let lr := readLine cs
      (c :: lr.1, lr.2)

/-- UTF-8 byte length of a string. -/
def utf8Len (s : RString) : Nat := (utf8Bytes s).length

/-- Rust `Read::take(n).read_to_end`: consume at most `n` bytes (here:
whole characters whose cumulative UTF-8 size fits in `n`); returns the
consumed part and the remainder. -/
def takeBytes (n : Nat) : RString → RString × RString
  | [] => ([], [])
  | c :: cs =>
    let sz := (utf8EncodeChar c).length
    if sz ≤ n then
      let tr := takeBytes (n - sz) cs
      (c :: tr.1, tr.2)
    else ([], c :: cs)

namespace RequestRs

/-- The chunked-transfer loop of `parse_http_response` (`src/request.rs`
lines 247–281), fuel-driven (each iteration consumes at least one
character, so `length + 1` fuel always suffices): read a size line, parse
it as hexadecimal (`u64::from_str_radix(.., 16).unwrap()`; `none` models
the panic on a malformed size), take that many bytes of chunk data, skip
the 2-byte spacing, and append; the loop ends at end of input
(`bytes_read == 0`), not at a zero-size chunk. -/
def chunkedLoopAux : Nat → RString → Option RString
  | 0, _ => none
  | fuel + 1, input =>
    if input.isEmpty then some []
    else
      let lr := readLine input
      match parseHexU64 (trimEnd lr.1) with
      | none => none
      | some bytes_to_read =>
        let tr := takeBytes bytes_to_read lr.2
        let rest3 := (takeBytes 2 tr.2).2
        (chunkedLoopAux fuel rest3).map (tr.1 ++ ·)

/-- The chunked-transfer body decoder of `parse_http_response`. -/
def chunkedDecode (input : RString) : Option RString :=
  chunkedLoopAux (input.length + 1) input

/-- The header loop of `parse_http_response` (`src/request.rs` lines
226–237), fuel-driven: read lines until the bare `"\r\n"`, split each at
the first `:` (whole line as key and empty value if there is none), trim
the value, and `HashMap::insert` it (duplicates overwrite).  At end of
input the source's `read_line` would return 0 bytes forever and the loop
would never terminate; that divergence is modelled as `none`. -/
def readHeadersAux : Nat → RString → List (RString × RString) →
    Option (List (RString × RString) × RString)
  | 0, _, _ => none
  | fuel + 1, input, acc =>
    if input.isEmpty then none
    else
      let lr := readLine input
      if lr.1 = str "\r\n" then some (acc, lr.2)
      else
        let hv := (splitOnceChar ':' lr.1).getD (lr.1, [])
        readHeadersAux fuel lr.2 (headersInsert acc hv.1 (trim hv.2))

/-- `Request::parse_http_response` of `src/request.rs` (lines 205–306).
`none` models every panic (`assert!` on the status line and on unexpected
`Transfer-Encoding`/`Content-Encoding` values, `unwrap` on the status code
and chunk sizes) and the `io::Error` paths.  A present `Content-Encoding`
header asserts the value is `gzip` and then inflates via the external
`flate2` crate; that decompression is outside the repository and is not
modelled (`none`); no claim in scope exercises it.  The `String::from_utf8`
step cannot fail in the character-level wire model. -/
def parse_http_response (data_buffer : RString) : Option HTTPResponse :=
  let sl := readLine data_buffer
  let status_parts := splitOnChar ' ' sl.1
  if ¬ containsSubstr (str "HTTP/") (status_parts.getD 0 []) then none
  else
    let http_version := trimStartMatches (str "HTTP/") (status_parts.getD 0 [])
    match status_parts.get? 1 with
    | none => none
    | some part1 =>
      match parseU16 part1 with
      | none => none
      | some status_code =>
        match status_parts.get? 2 with
        | none => none
        | some status_message =>
          match readHeadersAux (sl.2.length + 1) sl.2 [] with
          | none => none
          | some hr =>
            let headers := hr.1
            let framed :=
              match headersGet headers (str "Transfer-Encoding") with
              | some te =>
                if te = str "chunked" then chunkedDecode hr.2 else none
              | none => some hr.2
            match framed with
            | none => none
            | some body =>
              match headersGet headers (str "Content-Encoding") with
              | some _ => none
              | none =>
                some { http_version, status_code, status_message,
                       headers, data := body }

end RequestRs

/-- Lowercase hexadecimal digit (the rendering used when serializing chunk
sizes for the round-trip theorem). -/
def hexCharLower (n : Nat) : Char :=
  match n with
  | 0 => '0' | 1 => '1' | 2 => '2' | 3 => '3' | 4 => '4' | 5 => '5'
  | 6 => '6' | 7 => '7' | 8 => '8' | 9 => '9' | 10 => 'a' | 11 => 'b'
  | 12 => 'c' | 13 => 'd' | 14 => 'e' | _ => 'f'

/-- Fuel-driven hexadecimal rendering worker. -/
def natToHexAux : Nat → Nat → RString
  | 0, _ => []
  | fuel + 1, n =>
    if n < 16 then [hexCharLower n]
    else natToHexAux fuel (n / 16) ++ [hexCharLower (n % 16)]

/-- Hexadecimal rendering of a natural number (no sign, at least one
digit). -/
def natToHex (n : Nat) : RString := natToHexAux (n + 1) n

/-- One wire chunk: the hexadecimal byte count, CRLF, the data, CRLF. -/
def serializeChunk (d : RString) : RString :=
  natToHex (utf8Len d) ++ '\r' :: '\n' :: d ++ [ '\r', '\n' ]

/-- The chunked wire format of §4.2: each chunk as size line + data + CRLF,
closed by the zero-size chunk line `0\r\n` and its CRLF terminator. -/
def serializeChunks (chunks : List RString) : RString :=
  (chunks.map serializeChunk).flatten ++ [ '0', '\r', '\n', '\r', '\n' ]

end CodecSection

/-- The sixteen characters `natToHex` can produce. -/
def hexChars : List Char := str "0123456789abcdef"

/-- A scripted response element is a well-formed redirect: a redirect
status, and building the follow-up request from it succeeds with a request
the transport accepts, whatever the current request is (an absolute http(s)
`Location` that parses guarantees this). -/
def RequestRs.wellFormedRedirect (r : Option RequestRs.HTTPResponse) : Prop :=
  ∃ resp, r = some resp ∧ 300 ≤ resp.status_code ∧ resp.status_code ≤ 399 ∧
    ∀ q : RequestRs.HTTPRequest, ∃ q',
      RequestRs.build_request_from_redirect_response q resp = some q' ∧
      q'.url.authority.isSome = true ∧
      (q'.url.scheme = ReqUri.Scheme.HTTPS ∨ q'.url.scheme = ReqUri.Scheme.HTTP)

section ConcreteRequests

/-! ## Concrete requests for the fingerprint claims -/

/-- A concrete identifier: `http://example.org/index.html`
(`as_str` = `/index.htmlexample.org80`). -/
def c2Url : ReqUri.URI :=
  { scheme := .HTTP,
    authority := some { host := str "example.org", port := 80, userinfo := none },
    path := str "/index.html", viewSource := false }

/-- A concrete GET request with no headers. -/
def c2ReqNoHeaders : RequestRs.HTTPRequest :=
  { url := c2Url, http_version := str "1.1", method := .GET,
    headers := [], data := [] }

/-- The same request with one header. -/
def c2ReqA : RequestRs.HTTPRequest :=
  { c2ReqNoHeaders with headers := [(str "Accept-Encoding", str "gzip")] }

/-- The same request with the same header name but a different value. -/
def c2ReqB : RequestRs.HTTPRequest :=
  { c2ReqNoHeaders with headers := [(str "Accept-Encoding", str "br")] }

end ConcreteRequests

section ClaimWitnessData

/-! ## Concrete data for the claim witnesses -/

/-- Start identifier for the redirect-bound witness
(`http://www.example.org/`). -/
def c3Url : ReqUri.URI :=
  { scheme := .HTTP,
    authority := some { host := str "www.example.org", port := 80, userinfo := none },
    path := str "/", viewSource := false }

/-- The identifier `http://other.example/y` parses to. -/
def c3RedirURI : ReqUri.URI :=
  { scheme := .HTTP,
    authority := some { host := str "other.example", port := 80, userinfo := none },
    path := str "/y", viewSource := false }

/-- A `301` response with an absolute `Location`. -/
def c3Resp : RequestRs.HTTPResponse :=
  { http_version := str "1.1", status_code := 301, status_message := str "Moved",
    headers := [(str "Location", str "http://other.example/y")], data := [] }

/-- Six consecutive `301` responses. -/
def c3Script : List (Option RequestRs.HTTPResponse) :=
  [some c3Resp, some c3Resp, some c3Resp, some c3Resp, some c3Resp, some c3Resp]

/-- Current request for the relative-redirect witness (path `/a/b/c`). -/
def c4Req : RequestRs.HTTPRequest :=
  { url := { scheme := .HTTP,
             authority := some { host := str "www.example.org", port := 80, userinfo := none },
             path := str "/a/b/c", viewSource := false },
    http_version := str "1.1", method := .GET, headers := [], data := [] }

/-- A `301` response with relative `Location: /y`. -/
def c4Resp : RequestRs.HTTPResponse :=
  { http_version := str "1.1", status_code := 301, status_message := [],
    headers := [(str "Location", str "/y")], data := [] }

/-- Identifier for the cache round-trip witness. -/
def c8Url : ReqUri.URI :=
  { scheme := .HTTP,
    authority := some { host := str "h.example", port := 80, userinfo := none },
    path := str "/res", viewSource := false }

/-- A GET request for the cache round-trip witness. -/
def c8Req : RequestRs.HTTPRequest :=
  { url := c8Url, http_version := str "1.1", method := .GET, headers := [], data := [] }

/-- The empty in-memory cache index. -/
def c8EmptyCache : CacheRs.Cache := { items := [] }

/-- The empty cache directory. -/
def c8EmptyDisk : CacheRs.Disk := { files := [] }

/-- State after caching the 11-byte body `hello world`. -/
def c8St1 : CacheRs.Cache × CacheRs.Disk :=
  CacheRs.Cache.insert c8EmptyCache c8EmptyDisk c8Req (utf8Bytes (str "hello world")) 0

/-- State after re-caching the same fingerprint with the 3-byte body
`bye`. -/
def c8St2 : CacheRs.Cache × CacheRs.Disk :=
  CacheRs.Cache.insert c8St1.1 c8St1.2 c8Req (utf8Bytes (str "bye")) 0

end ClaimWitnessData

/-! ### Equivalence of the three parser copies (claim C10 groundwork) -/

theorem contains_schemes_eq (x : RString) :
    UrlRs.schemes.contains x = UriRs.SCHEMES.contains x := by
  simp only [List.contains, UrlRs.schemes, UriRs.SCHEMES,
    List.elem_eq_mem, decide_eq_decide]
  simp only [List.mem_cons, List.not_mem_nil, or_false]
  tauto

theorem contains_http_schemes_eq (x : RString) :
    UrlRs.HTTP_SCHEMES.contains x = UriRs.HTTP_SCHEMES.contains x := by
  simp only [List.contains, UrlRs.HTTP_SCHEMES, UriRs.HTTP_SCHEMES,
    List.elem_eq_mem, decide_eq_decide]
  simp only [List.mem_cons, List.not_mem_nil, or_false]
  tauto

theorem strip_schemes_eq : UrlRs.STRIP_SCHEMES = UriRs.STRIP_SCHEMES := rfl

theorem find_scheme_congr {l₁ l₂ : List RString}
    (h : ∀ x, l₁.contains x = l₂.contains x) :
    ∀ parts prev, find_scheme l₁ parts prev = find_scheme l₂ parts prev := by
  intro parts
  induction parts with
  | nil => intro prev; rfl
  | cons p ps ih =>
    intro prev
    simp only [find_scheme, h, ih]

theorem url_from_str_toUriRs (v : RString) :
    (UrlRs.URIScheme.from_str v).toUriRs = UriRs.URIScheme.from_str v := by
  unfold UrlRs.URIScheme.from_str UriRs.URIScheme.from_str
  repeat' split
  all_goals rfl

theorem main_from_str_toUriRs (v : RString) :
    (MainRs.HttpScheme.from_str v).toUriRs = UriRs.URIScheme.from_str v := by
  unfold MainRs.HttpScheme.from_str UriRs.URIScheme.from_str
  repeat' split
  all_goals rfl

theorem url_tail_eq_uri_tail (scheme url_copy : RString) :
    UriRs.URI.mk (UrlRs.URL.parse_tail scheme url_copy).scheme.toUriRs
      (UrlRs.URL.parse_tail scheme url_copy).hostname
      (UrlRs.URL.parse_tail scheme url_copy).path
      (UrlRs.URL.parse_tail scheme url_copy).port =
    UriRs.URI.parse_tail scheme url_copy := by
  unfold UrlRs.URL.parse_tail UriRs.URI.parse_tail
  rw [contains_http_schemes_eq]
  by_cases h1 : UriRs.HTTP_SCHEMES.contains scheme
  · simp only [h1, if_pos, if_true, url_from_str_toUriRs]
  · simp only [h1, if_neg, if_false, Bool.false_eq_true]
    by_cases h2 : scheme = str "file"
    · simp [h2, url_from_str_toUriRs]
    · by_cases h3 : scheme = str "data"
      · simp [h2, h3, url_from_str_toUriRs]
      · simp [h2, h3, url_from_str_toUriRs]

theorem main_tail_eq_uri_tail (scheme url_copy : RString) :
    UriRs.URI.mk (MainRs.parse_url_tail scheme url_copy).scheme.toUriRs
      (MainRs.parse_url_tail scheme url_copy).hostname
      (MainRs.parse_url_tail scheme url_copy).path
      (MainRs.parse_url_tail scheme url_copy).port =
    UriRs.URI.parse_tail scheme url_copy := by
  unfold MainRs.parse_url_tail UriRs.URI.parse_tail
  rw [contains_http_schemes_eq]
  by_cases h1 : UriRs.HTTP_SCHEMES.contains scheme
  · simp only [h1, if_pos, if_true, main_from_str_toUriRs]
  · simp only [h1, if_neg, if_false, Bool.false_eq_true]
    by_cases h2 : scheme = str "file"
    · simp [h2, main_from_str_toUriRs]
    · by_cases h3 : scheme = str "data"
      · simp [h2, h3, main_from_str_toUriRs]
      · simp [h2, h3, main_from_str_toUriRs]

/-- `URL::parse` of `src/url.rs` agrees with `URI::parse` of `src/uri.rs`
on every input, componentwise, with schemes identified constructor-wise. -/
theorem url_parse_eq_uri_parse (s : RString) :
    (UrlRs.URL.parse s).map
      (fun u => UriRs.URI.mk u.scheme.toUriRs u.hostname u.path u.port) =
    UriRs.URI.parse s := by
  unfold UrlRs.URL.parse UriRs.URI.parse
  rw [find_scheme_congr contains_schemes_eq, strip_schemes_eq]
  cases (if UriRs.scheme_regexp_matches s then
      match find_scheme UriRs.SCHEMES (splitOnChar ':' s) [] with
      | none => none
      | some (scheme, rest) =>
        some (scheme,
          if UriRs.STRIP_SCHEMES.contains scheme && (str "//").isPrefixOf rest
          then rest.drop 2 else rest)
    else some (str "http", s) : Option (RString × RString)) with
  | none => rfl
  | some p => simpa using url_tail_eq_uri_tail p.1 p.2

/-- `parse_url` of `src/main.rs` agrees with `URI::parse` of `src/uri.rs`
on every input, componentwise, with schemes identified constructor-wise. -/
theorem main_parse_eq_uri_parse (s : RString) :
    (MainRs.parse_url s).map
      (fun u => UriRs.URI.mk u.scheme.toUriRs u.hostname u.path u.port) =
    UriRs.URI.parse s := by
  unfold MainRs.parse_url UriRs.URI.parse
  rw [find_scheme_congr contains_schemes_eq]
  have hstrip : UrlRs.STRIP_SCHEMES = UriRs.STRIP_SCHEMES := rfl
  rw [hstrip]
  cases (if UriRs.scheme_regexp_matches s then
      match find_scheme UriRs.SCHEMES (splitOnChar ':' s) [] with
      | none => none
      | some (scheme, rest) =>
        some (scheme,
          if UriRs.STRIP_SCHEMES.contains scheme && (str "//").isPrefixOf rest
          then rest.drop 2 else rest)
    else some (str "http", s) : Option (RString × RString)) with
  | none => rfl
  | some p => simpa using main_tail_eq_uri_tail p.1 p.2

/-! ## SHA-256 known-answer checks (FIPS 180-4 test vectors) -/
/-- Sanity check mirroring the repository unit tests / spec examples. -/
theorem sha256_empty_vector : hexUpper (sha256 []) =
    str "E3B0C44298FC1C149AFBF4C8996FB92427AE41E4649B934CA495991B7852B855" := by
  decide

/-- Sanity check mirroring the repository unit tests / spec examples. -/
theorem sha256_abc_vector : hexUpper (sha256 (utf8Bytes (str "abc"))) =
    str "BA7816BF8F01CFEA414140DE5DAE2223B00361A396177A9CB410FF61F20015AD" := by
  decide

/-! ## Identifier-parser checks mirroring the unit tests of `src/uri.rs` -/
/-- Sanity check mirroring the repository unit tests / spec examples. -/
theorem uriRs_test_data_scheme : UriRs.URI.parse (str "data:text/html,Hellow world!") =
    some { scheme := .Data, hostname := [], path := str "text/html,Hellow world!", port := [] } := by
  decide

/-- Sanity check mirroring the repository unit tests / spec examples. -/
theorem uriRs_test_http : UriRs.URI.parse (str "http://www.example.org") =
    some { scheme := .HTTP, hostname := str "www.example.org", path := str "/", port := str "80" } := by
  decide

/-- Sanity check mirroring the repository unit tests / spec examples. -/
theorem uriRs_test_view_source_https_port : UriRs.URI.parse (str "view-source:https://www.example.org:9090") =
    some { scheme := .ViewSourceHTTPS, hostname := str "www.example.org", path := str "/", port := str "9090" } := by
  decide

/-- Sanity check mirroring the repository unit tests / spec examples. -/
theorem uriRs_test_file_absolute : UriRs.URI.parse (str "file:///Users/test/main.rs") =
    some { scheme := .File, hostname := [], path := str "/Users/test/main.rs", port := [] } := by
  decide

/-- Sanity check mirroring the repository unit tests / spec examples. -/
theorem uriRs_test_view_source_ftp_panics : UriRs.URI.parse (str "view-source:ftp://x") = none := by decide

/-- Sanity check mirroring the repository unit tests / spec examples. -/
theorem uriRs_test_no_colon : UriRs.URI.parse (str "no-colon-here") =
    some { scheme := .HTTP, hostname := str "no-colon-here", path := str "/", port := str "80" } := by
  decide

/-- Sanity check mirroring the repository unit tests / spec examples. -/
theorem uriRs_test_empty_host : UriRs.URI.parse (str "http://") =
    some { scheme := .HTTP, hostname := [], path := str "/", port := str "80" } := by
  decide

/-- Sanity check mirroring the repository unit tests / spec examples. -/
theorem uriRs_test_nonnumeric_port : UriRs.URI.parse (str "http://h:abc/x") =
    some { scheme := .HTTP, hostname := str "h", path := str "/x", port := str "abc" } := by
  decide

/-! ## Codec sanity checks -/
/-- Sanity check mirroring the repository unit tests / spec examples. -/
theorem codec_chunked_wikipedia : RequestRs.chunkedDecode (str "4\r\nWiki\r\n5\r\npedia\r\n0\r\n\r\n") =
    some (str "Wikipedia") := by decide

/-- Sanity check mirroring the repository unit tests / spec examples. -/
theorem codec_parse_chunked_wikipedia : (RequestRs.parse_http_response (str "HTTP/1.1 200 OK\r\nTransfer-Encoding: chunked\r\n\r\n4\r\nWiki\r\n5\r\npedia\r\n0\r\n\r\n")).map
    RequestRs.HTTPResponse.data = some (str "Wikipedia") := by decide

/-- Sanity check mirroring the repository unit tests / spec examples. -/
theorem codec_contains_not_prefix : (RequestRs.parse_http_response (str "xHTTP/1.1 200 OK\r\n\r\n")).isSome = true := by decide

/-- Sanity check mirroring the repository unit tests / spec examples. -/
theorem codec_version_double_strip : (RequestRs.parse_http_response (str "HTTP/HTTP/1.1 200 OK\r\n\r\n")).map
    RequestRs.HTTPResponse.http_version = some (str "1.1") := by decide

/-- Sanity check mirroring the repository unit tests / spec examples. -/
theorem codec_bad_status_line : RequestRs.parse_http_response (str "FTP/1.1 200 OK\r\n\r\n") = none := by decide

/-- Sanity check mirroring the repository unit tests / spec examples. -/
theorem codec_bad_status_code : RequestRs.parse_http_response (str "HTTP/1.1 abc OK\r\n\r\n") = none := by decide

/-- Sanity check mirroring the repository unit tests / spec examples. -/
theorem codec_serialize_wikipedia : serializeChunks [str "Wiki", str "pedia"] = str "4\r\nWiki\r\n5\r\npedia\r\n0\r\n\r\n" := by decide

section ChunkedRoundTripLemmas

/-! ## Lemmas for the chunked-framing round trip (claim C5 groundwork) -/

theorem hexCharLower_mem (d : Nat) : hexCharLower d ∈ hexChars := by
  unfold hexCharLower
  split <;> decide

theorem hexChars_not_newline : ∀ c ∈ hexChars, c ≠ '\n' := by decide

theorem hexChars_not_ws : ∀ c ∈ hexChars, ¬ isRustWhitespace c := by decide

theorem hexChars_not_plus : ∀ c ∈ hexChars, c ≠ '+' := by decide

theorem hexDigitVal_hexCharLower : ∀ d < 16, hexDigitVal (hexCharLower d) = some d := by
  decide

theorem natToHexAux_mem_hexChars (fuel n : Nat) :
    ∀ c ∈ natToHexAux fuel n, c ∈ hexChars := by
  induction fuel generalizing n with
  | zero => simp [natToHexAux]
  | succ f ih =>
    intro c hc
    unfold natToHexAux at hc
    split at hc
    · simp at hc
      exact hc ▸ hexCharLower_mem n
    · rcases List.mem_append.mp hc with h | h
      · exact ih _ c h
      · simp at h
        exact h ▸ hexCharLower_mem (n % 16)

theorem natToHexAux_ne_nil (fuel n : Nat) (hf : 0 < fuel) :
    natToHexAux fuel n ≠ [] := by
  cases fuel with
  | zero => omega
  | succ f =>
    unfold natToHexAux
    split
    · simp
    · simp

theorem readLine_append (s rest : RString) (h : ∀ c ∈ s, c ≠ '\n') :
    readLine (s ++ '\n' :: rest) = (s ++ ['\n'], rest) := by
  induction s with
  | nil => simp [readLine]
  | cons c cs ih =>
    have hc : c ≠ '\n' := h c (by simp)
    have ih' := ih (fun x hx => h x (by simp [hx]))
    simp [readLine, hc, ih']

theorem utf8EncodeChar_length_pos (c : Char) : 0 < (utf8EncodeChar c).length := by
  simp only [utf8EncodeChar]
  repeat' split
  all_goals simp

theorem takeBytes_zero (l : RString) : takeBytes 0 l = ([], l) := by
  cases l with
  | nil => rfl
  | cons c cs =>
    unfold takeBytes
    rw [if_neg (by have := utf8EncodeChar_length_pos c; omega)]

theorem utf8Len_cons (c : Char) (s : RString) :
    utf8Len (c :: s) = (utf8EncodeChar c).length + utf8Len s := by
  simp [utf8Len, utf8Bytes]

theorem takeBytes_append (d rest : RString) :
    takeBytes (utf8Len d) (d ++ rest) = (d, rest) := by
  induction d with
  | nil =>
    simp only [List.nil_append]
    have : utf8Len [] = 0 := by simp [utf8Len, utf8Bytes]
    rw [this, takeBytes_zero]
  | cons c cs ih =>
    rw [utf8Len_cons]
    unfold takeBytes
    simp only [List.cons_append]
    rw [if_pos (by omega)]
    have hn : (utf8EncodeChar c).length + utf8Len cs - (utf8EncodeChar c).length
        = utf8Len cs := by omega
    simp [hn, ih]

theorem takeBytes_two_crlf (rest : RString) :
    (takeBytes 2 ('\r' :: '\n' :: rest)).2 = rest := by
  have h1 : (utf8EncodeChar '\r').length = 1 := by decide
  have h2 : (utf8EncodeChar '\n').length = 1 := by decide
  simp [takeBytes, h1, h2, takeBytes_zero]

theorem dropWhile_of_not_head {p : Char → Bool} :
    ∀ (l : RString), (∀ c ∈ l, ¬ p c) → l.dropWhile p = l
  | [], _ => rfl
  | c :: cs, h => by
    have : ¬ p c := h c (by simp)
    simp [List.dropWhile_cons, this]

theorem trimEnd_crlf (s : RString) (h : ∀ c ∈ s, ¬ isRustWhitespace c) :
    trimEnd (s ++ ['\r', '\n']) = s := by
  unfold trimEnd
  rw [List.reverse_append]
  simp only [List.reverse_cons, List.reverse_nil, List.nil_append,
    List.cons_append, List.dropWhile_cons]
  norm_num [isRustWhitespace]
  rw [dropWhile_of_not_head s.reverse (fun c hc => h c (List.mem_reverse.mp hc))]
  simp

theorem natToHexAux_foldl (fuel : Nat) :
    ∀ n a, n < 16 ^ fuel →
      (natToHexAux fuel n).foldl hexStep (some a) =
        some (a * 16 ^ (natToHexAux fuel n).length + n) := by
  induction fuel with
  | zero => intro n a h; simp at h; simp [natToHexAux, h]
  | succ f ih =>
    intro n a h
    unfold natToHexAux
    split
    · rename_i hlt
      simp [List.foldl, hexStep, hexDigitVal_hexCharLower n hlt]
    · rename_i hge
      push_neg at hge
      have hdiv : n / 16 < 16 ^ f := by
        have : n < 16 * 16 ^ f := by
          calc n < 16 ^ (f + 1) := h
          _ = 16 * 16 ^ f := by ring
        omega
      rw [List.foldl_append, ih (n / 16) a hdiv]
      have hmod : n % 16 < 16 := Nat.mod_lt _ (by norm_num)
      simp only [List.foldl, hexStep, hexDigitVal_hexCharLower _ hmod,
        List.length_append, List.length_cons, List.length_nil]
      congr 1
      have hsplit : (a * 16 ^ (natToHexAux f (n / 16)).length + n / 16) * 16 + n % 16
          = a * (16 ^ (natToHexAux f (n / 16)).length * 16) + (n / 16 * 16 + n % 16) := by
        ring
      rw [hsplit, ← pow_succ]
      have hval : n / 16 * 16 + n % 16 = n := by omega
      rw [hval]

theorem parseHexU64_natToHex (n : Nat) : parseHexU64 (natToHex n) = some n := by
  have hne : natToHex n ≠ [] := natToHexAux_ne_nil (n + 1) n (by omega)
  have hmem : ∀ c ∈ natToHex n, c ∈ hexChars := natToHexAux_mem_hexChars (n + 1) n
  have hhead : ¬ (natToHex n).head? = some '+' := by
    cases hc : natToHex n with
    | nil => simp
    | cons c cs =>
      have : c ∈ hexChars := by
        have := hmem c
        rw [hc] at this
        exact this (by simp)
      have hcp : c ≠ '+' := hexChars_not_plus c this
      simp [hcp]
  have hn16 : n < 16 ^ (n + 1) := by
    calc n < 16 ^ n := Nat.lt_pow_self (by norm_num) n
    _ ≤ 16 ^ (n + 1) := Nat.pow_le_pow_right (by norm_num) (by omega)
  unfold parseHexU64
  simp only [if_neg hhead]
  rw [if_neg (by simpa using hne)]
  simpa using natToHexAux_foldl (n + 1) n 0 hn16

theorem chunkedLoopAux_nil (f : Nat) (hf : 0 < f) :
    RequestRs.chunkedLoopAux f [] = some [] := by
  cases f with
  | zero => omega
  | succ g => simp [RequestRs.chunkedLoopAux]

theorem chunkedLoopAux_serialize :
    ∀ (chunks : List RString) (fuel : Nat),
      (serializeChunks chunks).length < fuel →
      RequestRs.chunkedLoopAux fuel (serializeChunks chunks) = some chunks.flatten := by
  intro chunks
  induction chunks with
  | nil =>
    intro fuel hf
    have h5 : (serializeChunks ([] : List RString)).length = 5 := by decide
    obtain ⟨f, rfl⟩ : ∃ f, fuel = f + 1 := ⟨fuel - 1, by omega⟩
    have hf0 : 0 < f := by omega
    unfold RequestRs.chunkedLoopAux
    have hice : serializeChunks ([] : List RString) = str "0\r\n\r\n" := by decide
    rw [hice, if_neg (by decide)]
    have hrl : readLine (str "0\r\n\r\n") = (str "0\r\n", str "\r\n") := by decide
    have hpx : parseHexU64 (trimEnd (str "0\r\n")) = some 0 := by decide
    have htb : (takeBytes 2 (str "\r\n")).2 = [] := by decide
    simp only [hrl, hpx, takeBytes_zero, htb, chunkedLoopAux_nil f hf0]
    rfl
  | cons d cs ih =>
    intro fuel hf
    obtain ⟨f, rfl⟩ : ∃ f, fuel = f + 1 := ⟨fuel - 1, by omega⟩
    have hser : serializeChunks (d :: cs) =
        (natToHex (utf8Len d) ++ ['\r']) ++ '\n' ::
          (d ++ '\r' :: '\n' :: serializeChunks cs) := by
      simp [serializeChunks, serializeChunk]
    have hnoNL : ∀ c ∈ natToHex (utf8Len d) ++ ['\r'], c ≠ '\n' := by
      intro c hc
      rcases List.mem_append.mp hc with h | h
      · exact hexChars_not_newline c (natToHexAux_mem_hexChars _ _ c h)
      · simp at h
        subst h
        decide
    have hlen : (serializeChunks cs).length < f := by
      have h1 : (serializeChunks (d :: cs)).length =
          (serializeChunk d).length + (serializeChunks cs).length := by
        simp [serializeChunks]
      have h2 : 0 < (serializeChunk d).length := by
        simp [serializeChunk]
      omega
    unfold RequestRs.chunkedLoopAux
    rw [hser]
    have hne : (((natToHex (utf8Len d) ++ ['\r']) ++ '\n' ::
        (d ++ '\r' :: '\n' :: serializeChunks cs)).isEmpty) = false := by
      simp
    rw [readLine_append _ _ hnoNL]
    simp only [hne, Bool.false_eq_true, if_false]
    have hle : (natToHex (utf8Len d) ++ ['\r']) ++ ['\n'] =
        natToHex (utf8Len d) ++ ['\r', '\n'] := by simp
    have hws : ∀ c ∈ natToHex (utf8Len d), ¬ isRustWhitespace c :=
      fun c hc => hexChars_not_ws c (natToHexAux_mem_hexChars _ _ c hc)
    rw [hle, trimEnd_crlf (natToHex (utf8Len d)) hws, parseHexU64_natToHex]
    have htake : takeBytes (utf8Len d) (d ++ '\r' :: '\n' :: serializeChunks cs) =
        (d, '\r' :: '\n' :: serializeChunks cs) := takeBytes_append d _
    simp only [htake, takeBytes_two_crlf, ih f hlen]
    simp

end ChunkedRoundTripLemmas

section HeaderMapLemmas

/-! ## Header-map lemmas (duplicate keys overwrite) -/

theorem find?_key_map_insert {β : Type} (k : RString) (v : β) (hs : List (RString × β))
    (h : hs.any (fun kv => kv.1 == k) = true) :
    (hs.map (fun kv => if kv.1 == k then (k, v) else kv)).find?
        (fun kv => kv.1 == k) = some (k, v) := by
  induction hs with
  | nil => simp at h
  | cons kv tl ih =>
    by_cases hk : (kv.1 == k) = true
    · have heq : kv.1 = k := by simpa using hk
      simp [List.find?_cons, heq]
    · have hkf : (kv.1 == k) = false := by simpa using hk
      have h' : tl.any (fun kv => kv.1 == k) = true := by
        simp only [List.any_cons, hkf, Bool.false_or] at h
        exact h
      have hhead : (if (kv.1 == k) = true then (k, v) else kv) = kv := if_neg hk
      rw [List.map_cons, hhead, List.find?_cons, hkf]
      exact ih h'

theorem find?_key_append_absent {β : Type} (k : RString) (v : β) (hs : List (RString × β))
    (h : hs.any (fun kv => kv.1 == k) = false) :
    (hs ++ [(k, v)]).find? (fun kv => kv.1 == k) = some (k, v) := by
  induction hs with
  | nil => simp [List.find?]
  | cons kv tl ih =>
    have hk : (kv.1 == k) = false := by
      simp only [List.any_cons, Bool.or_eq_false_iff] at h
      exact h.1
    have h' : tl.any (fun kv => kv.1 == k) = false := by
      simp only [List.any_cons, Bool.or_eq_false_iff] at h
      exact h.2
    simp only [List.cons_append, List.find?_cons, hk]
    exact ih h'

/-- `HashMap::insert` then `get` of the same key yields the inserted value:
the mapping stores one value per name, so the last insert wins. -/
theorem headersGet_insert (hs : List (RString × RString)) (k v : RString) :
    RequestRs.headersGet (RequestRs.headersInsert hs k v) k = some v := by
  unfold RequestRs.headersInsert RequestRs.headersGet
  by_cases h : hs.any (fun kv => kv.1 == k) = true
  · rw [if_pos h, find?_key_map_insert k v hs h]
    rfl
  · have hfalse : hs.any (fun kv => kv.1 == k) = false := by
      cases hb : hs.any (fun kv => kv.1 == k)
      · rfl
      · exact absurd hb h
    rw [if_neg h, find?_key_append_absent k v hs hfalse]
    rfl

end HeaderMapLemmas

section UriGeneralLemmas

/-! ## General facts about `URI::parse` of `src/uri.rs` -/

theorem find_scheme_mem {schemes : List RString} :
    ∀ {parts : List RString} {prev sch rest : RString},
      find_scheme schemes parts prev = some (sch, rest) →
      schemes.contains sch = true := by
  intro parts
  induction parts with
  | nil => intro prev sch rest h; simp [find_scheme] at h
  | cons p ps ih =>
    intro prev sch rest h
    simp only [find_scheme] at h
    split at h <;> split at h <;>
      first
        | (rename_i hc
           injection h with h1
           injection h1 with h1 h2
           exact h1 ▸ hc)
        | exact ih h

theorem uri_parse_tail_http_scheme (s : RString) :
    (UriRs.URI.parse_tail (str "http") s).scheme = UriRs.URIScheme.HTTP := by
  unfold UriRs.URI.parse_tail
  rw [if_pos (by decide)]
  rfl

/-- Inputs that do not match the scheme regexp never fail: they are parsed
with the fallback scheme string `"http"`. -/
theorem uri_parse_no_regexp (s : RString)
    (h : UriRs.scheme_regexp_matches s = false) :
    UriRs.URI.parse s = some (UriRs.URI.parse_tail (str "http") s) := by
  unfold UriRs.URI.parse
  simp [h]

/-- Parse failures (the `assert!(scheme_found)` panic) happen only on inputs
that match the scheme regexp. -/
theorem uri_parse_none_imp_regexp (s : RString)
    (h : UriRs.URI.parse s = none) :
    UriRs.scheme_regexp_matches s = true := by
  by_contra hc
  rw [uri_parse_no_regexp s (by simpa using hc)] at h
  exact Option.noConfusion h

/-- Whenever `URI::parse` succeeds, the result is `parse_tail` applied to a
scheme string that is either in `SCHEMES` or the fallback `"http"`. -/
theorem uri_parse_shape (s : RString) (u : UriRs.URI)
    (h : UriRs.URI.parse s = some u) :
    ∃ sch rest, (UriRs.SCHEMES.contains sch = true ∨ sch = str "http") ∧
      u = UriRs.URI.parse_tail sch rest := by
  unfold UriRs.URI.parse at h
  split at h
  · exact Option.noConfusion h
  · rename_i init sch0 rest0 heq
    injection h with h
    refine ⟨sch0, rest0, ?_, h.symm⟩
    split at heq
    · split at heq
      · exact Option.noConfusion heq
      · rename_i sch1 rest1 hfs
        injection heq with heq
        injection heq with heq1 heq2
        exact Or.inl (heq1 ▸ find_scheme_mem hfs)
    · injection heq with heq
      injection heq with heq1 heq2
      exact Or.inr heq1.symm

/-- The six scheme strings, case-analyzed. -/
theorem schemes_cases (sch : RString) (h : UriRs.SCHEMES.contains sch = true) :
    sch = str "data" ∨ sch = str "file" ∨ sch = str "http" ∨ sch = str "https" ∨
    sch = str "view-source:https" ∨ sch = str "view-source:http" := by
  simp only [UriRs.SCHEMES, List.contains, List.elem_eq_mem, decide_eq_true_eq,
    List.mem_cons, List.not_mem_nil, or_false] at h
  tauto

/-- Over every reachable scheme string, a `File`- or `Data`-schemed result
has empty hostname and port. -/
theorem uri_parse_tail_file_data (sch rest : RString)
    (hreach : UriRs.SCHEMES.contains sch = true ∨ sch = str "http")
    (hs : (UriRs.URI.parse_tail sch rest).scheme = UriRs.URIScheme.File ∨
          (UriRs.URI.parse_tail sch rest).scheme = UriRs.URIScheme.Data) :
    (UriRs.URI.parse_tail sch rest).hostname = [] ∧
    (UriRs.URI.parse_tail sch rest).port = [] := by
  rcases hreach with h | h
  · rcases schemes_cases sch h with h | h | h | h | h | h <;> subst h
    · constructor <;> rfl
    · constructor <;> rfl
    · rw [uri_parse_tail_http_scheme] at hs
      rcases hs with hs | hs <;> exact UriRs.URIScheme.noConfusion hs
    · exfalso
      have : (UriRs.URI.parse_tail (str "https") rest).scheme
          = UriRs.URIScheme.HTTPS := by
        unfold UriRs.URI.parse_tail
        rw [if_pos (by decide)]
        rfl
      rw [this] at hs
      rcases hs with hs | hs <;> exact UriRs.URIScheme.noConfusion hs
    · exfalso
      have : (UriRs.URI.parse_tail (str "view-source:https") rest).scheme
          = UriRs.URIScheme.ViewSourceHTTPS := by
        unfold UriRs.URI.parse_tail
        rw [if_pos (by decide)]
        rfl
      rw [this] at hs
      rcases hs with hs | hs <;> exact UriRs.URIScheme.noConfusion hs
    · exfalso
      have : (UriRs.URI.parse_tail (str "view-source:http") rest).scheme
          = UriRs.URIScheme.ViewSourceHTTP := by
        unfold UriRs.URI.parse_tail
        rw [if_pos (by decide)]
        rfl
      rw [this] at hs
      rcases hs with hs | hs <;> exact UriRs.URIScheme.noConfusion hs
  · subst h
    rw [uri_parse_tail_http_scheme] at hs
    rcases hs with hs | hs <;> exact UriRs.URIScheme.noConfusion hs

/-- Over every reachable scheme string, a result with an http-family scheme
has a `/`-prefixed path. -/
theorem uri_parse_tail_http_path (sch rest : RString)
    (hreach : UriRs.SCHEMES.contains sch = true ∨ sch = str "http")
    (hs : (UriRs.URI.parse_tail sch rest).scheme = UriRs.URIScheme.HTTP ∨
          (UriRs.URI.parse_tail sch rest).scheme = UriRs.URIScheme.HTTPS ∨
          (UriRs.URI.parse_tail sch rest).scheme = UriRs.URIScheme.ViewSourceHTTP ∨
          (UriRs.URI.parse_tail sch rest).scheme = UriRs.URIScheme.ViewSourceHTTPS) :
    ∃ t, (UriRs.URI.parse_tail sch rest).path = '/' :: t := by
  have htail : ∀ s2, UriRs.HTTP_SCHEMES.contains s2 = true →
      ∃ t, (UriRs.URI.parse_tail s2 rest).path = '/' :: t := by
    intro s2 h2
    unfold UriRs.URI.parse_tail
    rw [if_pos h2]
    exact ⟨_, rfl⟩
  have hfile : ∀ s2, s2 = str "file" ∨ s2 = str "data" →
      ((UriRs.URI.parse_tail s2 rest).scheme = UriRs.URIScheme.File ∨
       (UriRs.URI.parse_tail s2 rest).scheme = UriRs.URIScheme.Data) := by
    intro s2 h2
    rcases h2 with h2 | h2 <;> subst h2
    · left; rfl
    · right; rfl
  rcases hreach with h | h
  · rcases schemes_cases sch h with h | h | h | h | h | h <;> subst h
    · rcases hfile (str "data") (Or.inr rfl) with hcontra | hcontra <;>
        rw [hcontra] at hs <;> rcases hs with hs | hs | hs | hs <;>
        exact UriRs.URIScheme.noConfusion hs
    · rcases hfile (str "file") (Or.inl rfl) with hcontra | hcontra <;>
        rw [hcontra] at hs <;> rcases hs with hs | hs | hs | hs <;>
        exact UriRs.URIScheme.noConfusion hs
    · exact htail _ (by decide)
    · exact htail _ (by decide)
    · exact htail _ (by decide)
    · exact htail _ (by decide)
  · subst h
    exact htail _ (by decide)

end UriGeneralLemmas

section SendLoopLemmas

/-! ## The redirect loop bound (claim C3 groundwork) -/

theorem sendLoop_redirect_bound :
    ∀ (script : List (Option RequestRs.HTTPResponse)) (req : RequestRs.HTTPRequest)
      (count : Nat),
      count ≤ 5 →
      5 - count ≤ script.length →
      (∀ i, i < 5 - count → ∀ r, script.get? i = some r → RequestRs.wellFormedRedirect r) →
      req.url.authority.isSome = true →
      (req.url.scheme = ReqUri.Scheme.HTTPS ∨ req.url.scheme = ReqUri.Scheme.HTTP) →
      RequestRs.sendLoop req script count = .panicTooManyRedirects := by
  intro script
  induction script with
  | nil =>
    intro req count h5 hlen hred hauth hsch
    have hc5 : count = 5 := by simp at hlen; omega
    unfold RequestRs.sendLoop
    rw [if_neg (by omega)]
  | cons r rest ih =>
    intro req count h5 hlen hred hauth hsch
    by_cases hc : count < 5
    · obtain ⟨resp, hr, h300, h399, hbuild⟩ := hred 0 (by omega) r rfl
      subst hr
      obtain ⟨q', hq', hq'auth, hq'sch⟩ := hbuild req
      have hnone : req.url.authority.isNone = false := by
        cases h : req.url.authority
        · rw [h] at hauth; simp at hauth
        · simp [h]
      unfold RequestRs.sendLoop
      rw [if_pos hc]
      simp only [hnone, Bool.false_eq_true, if_false, if_pos hsch,
        if_neg (show ¬(resp.status_code < 300 ∨ resp.status_code > 399) by omega),
        hq']
      exact ih q' (count + 1) (by omega) (by simp at hlen ⊢; omega)
        (fun i hi r' hr' => hred (i + 1) (by omega) r' (by simpa using hr'))
        hq'auth hq'sch
    · have hc5 : count = 5 := by omega
      unfold RequestRs.sendLoop
      rw [if_neg (by omega)]

end SendLoopLemmas

section CacheLemmas

/-! ## Disk and fingerprint lemmas (claim C8 groundwork) -/

theorem flatMap_pair_length {α β : Type} (f g : α → β) (l : List α) :
    (l.flatMap (fun b => [f b, g b])).length = 2 * l.length := by
  induction l with
  | nil => rfl
  | cons x xs ih => simp [ih]; ring

theorem be32_length (n : Nat) : (be32 n).length = 4 := rfl

theorem sha256_length (msg : List Nat) : (sha256 msg).length = 32 := by
  unfold sha256
  have h8 : ∀ (chunks : List (List Nat)) (hv : List Nat), hv.length = 8 →
      (chunks.foldl shaBlock hv).length = 8 := by
    intro chunks
    induction chunks with
    | nil => intro hv h; exact h
    | cons c cs ih =>
      intro hv h
      exact ih _ (by simp [shaBlock])
  have hlen := h8 (chunks64 (shaPad msg)) shaH0 (by decide)
  rw [List.length_flatMap]
  have : List.map (List.length ∘ be32) ((chunks64 (shaPad msg)).foldl shaBlock shaH0)
      = List.replicate ((chunks64 (shaPad msg)).foldl shaBlock shaH0).length 4 := by
    apply List.map_eq_replicate_iff.mpr
    intro x _
    rfl
  rw [this, hlen]
  simp

theorem hash_from_length (req : RequestRs.HTTPRequest) :
    (CacheRs.hash_from req).length = 64 := by
  unfold CacheRs.hash_from hexUpper
  rw [flatMap_pair_length, sha256_length]

theorem hash_ne_control (req : RequestRs.HTTPRequest) :
    ((str ".control" : RString) == CacheRs.hash_from req) = false := by
  cases hb : (str ".control" : RString) == CacheRs.hash_from req
  · rfl
  · exfalso
    have heq : (str ".control" : RString) = CacheRs.hash_from req := by
      exact eq_of_beq hb
    have := hash_from_length req
    rw [← heq] at this
    simp [str] at this

theorem find?_map_invariant {α : Type} (p : α → Bool) (f : α → α)
    (hp : ∀ e, p (f e) = p e) (hf : ∀ e, p e = true → f e = e) :
    ∀ l : List α, (l.map f).find? p = l.find? p := by
  intro l
  induction l with
  | nil => rfl
  | cons e tl ih =>
    cases he : p e
    · rw [List.map_cons, List.find?_cons, hp e, he, List.find?_cons, he, ih]
    · rw [List.map_cons, List.find?_cons, hp e, he, List.find?_cons, he, hf e he]

/-- Reading a name other than the one written is unaffected by
`writeNoTrunc`. -/
theorem disk_read_write_other (d : CacheRs.Disk) (n1 n2 : RString)
    (data : List Nat) (h : (n1 == n2) = false) :
    (d.writeNoTrunc n2 data).read n1 = d.read n1 := by
  have hne : n1 ≠ n2 := by
    intro hcontra
    rw [hcontra] at h
    simp at h
  unfold CacheRs.Disk.writeNoTrunc
  cases hr : d.read n2 with
  | none =>
    unfold CacheRs.Disk.read
    rw [List.find?_append]
    have hlast : List.find? (fun f => f.1 == n1) [(n2, data)] = none := by
      have hb : (n2 == n1) = false := by
        simp [hne.symm]
      simp [List.find?, hb]
    rw [hlast]
    cases List.find? (fun f => f.1 == n1) d.files <;> rfl
  | some old =>
    unfold CacheRs.Disk.read
    rw [find?_map_invariant]
    · intro e
      by_cases he : (e.1 == n2) = true
      · have : e.1 = n2 := by simpa using he
        rw [if_pos he]
        simp [this]
      · rw [if_neg he]
    · intro e hpe
      have he1 : e.1 = n1 := by simpa using hpe
      rw [if_neg ?hc]
      case hc =>
        rw [he1]
        simp [hne]

/-- Reading back the name just written: the new data, with any surviving
tail of longer previous content appended (the `truncate(false)` effect). -/
theorem disk_read_write_same (d : CacheRs.Disk) (n : RString) (data : List Nat) :
    (d.writeNoTrunc n data).read n =
      some (data ++ ((d.read n).getD []).drop data.length) := by
  unfold CacheRs.Disk.writeNoTrunc
  cases hr : d.read n with
  | none =>
    unfold CacheRs.Disk.read at hr ⊢
    rw [List.find?_append]
    have hfiles : List.find? (fun f => f.1 == n) d.files = none := by
      cases hf : List.find? (fun f => f.1 == n) d.files
      · rfl
      · rw [hf] at hr; simp at hr
    rw [hfiles]
    simp [List.find?]
  | some old =>
    unfold CacheRs.Disk.read at hr ⊢
    have hany : d.files.any (fun f => f.1 == n) = true := by
      cases hf : List.find? (fun f => f.1 == n) d.files with
      | none => rw [hf] at hr; simp at hr
      | some e =>
        have hmem := List.mem_of_find?_eq_some hf
        have hpe := List.find?_some hf
        exact List.any_eq_true.mpr ⟨e, hmem, hpe⟩
    rw [find?_key_map_insert n (data ++ old.drop data.length) d.files hany]
    have : old = ((some old).getD []) := rfl
    simp [hr]

theorem hash_ne_control' (req : RequestRs.HTTPRequest) :
    (CacheRs.hash_from req == str ".control") = false := by
  cases hb : CacheRs.hash_from req == str ".control"
  · rfl
  · exfalso
    have heq : CacheRs.hash_from req = str ".control" := eq_of_beq hb
    have := hash_from_length req
    rw [heq] at this
    simp [str] at this

/-- After `Cache::insert`, extracting the same `GET` request returns the
inserted body, provided no longer body was previously stored under the same
fingerprint (the body file is opened without truncation, so a longer old
body would leave a surviving tail). -/
theorem cache_insert_then_extract (c : CacheRs.Cache) (d : CacheRs.Disk)
    (req : RequestRs.HTTPRequest) (body : List Nat) (e : Nat)
    (hmeth : req.method = RequestRs.HTTPMethod.GET)
    (hold : ((d.read (CacheRs.hash_from req)).getD []).length ≤ body.length) :
    CacheRs.Cache.extract (CacheRs.Cache.insert c d req body e).1
      (CacheRs.Cache.insert c d req body e).2 req = .ok body := by
  have hdrop : ((d.read (CacheRs.hash_from req)).getD []).drop body.length = [] :=
    List.drop_eq_nil_of_le hold
  simp only [CacheRs.Cache.insert, CacheRs.Cache.extract, hmeth]
  cases hf : c.items.find? (fun item => item.path_string == CacheRs.hash_from req) with
  | none =>
    have happ : (c.items ++ [(⟨e, CacheRs.hash_from req⟩ : CacheRs.Item)]).find?
        (fun item => item.path_string == CacheRs.hash_from req)
        = some (⟨e, CacheRs.hash_from req⟩ : CacheRs.Item) := by
      rw [List.find?_append, hf]
      simp [List.find?]
    simp only [happ]
    rw [disk_read_write_other _ _ _ _ (hash_ne_control' req), disk_read_write_same]
    simp only [hdrop, List.append_nil]
  | some it =>
    have hpath : it.path_string = CacheRs.hash_from req := by
      have := List.find?_some hf
      simpa using this
    have happ : (c.items ++ [(⟨e, CacheRs.hash_from req⟩ : CacheRs.Item)]).find?
        (fun item => item.path_string == CacheRs.hash_from req) = some it := by
      rw [List.find?_append, hf]
      rfl
    simp only [happ, hpath]
    rw [disk_read_write_other _ _ _ _ (hash_ne_control' req), disk_read_write_same]
    simp only [hdrop, List.append_nil]

/-- A fingerprint matched by no item in the in-memory index is a
`NotFound` miss (for `GET` requests). -/
theorem cache_extract_not_found (c : CacheRs.Cache) (d : CacheRs.Disk)
    (req : RequestRs.HTTPRequest)
    (hmeth : req.method = RequestRs.HTTPMethod.GET)
    (habsent : ∀ it ∈ c.items, it.path_string ≠ CacheRs.hash_from req) :
    CacheRs.Cache.extract c d req = .error .NotFound := by
  have hnone : c.items.find? (fun item => item.path_string == CacheRs.hash_from req) = none := by
    rw [List.find?_eq_none]
    intro it hmem
    simpa using habsent it hmem
  simp only [CacheRs.Cache.extract, hmeth, hnone]

end CacheLemmas

section HeaderLoopLemmas

/-! ## Header-loop stepping lemmas (claims C5/C6 groundwork) -/

theorem append_cons_isEmpty {α : Type} (l : List α) (c : α) (r : List α) :
    (l ++ c :: r).isEmpty = false := by
  cases l <;> rfl

theorem readHeadersAux_step (line rest : RString) (acc : List (RString × RString))
    (f : Nat) (hnl : ∀ c ∈ line, c ≠ '\n') (hne : ¬ line ++ ['\n'] = str "\r\n") :
    RequestRs.readHeadersAux (f + 1) (line ++ '\n' :: rest) acc =
      RequestRs.readHeadersAux f rest
        (RequestRs.headersInsert acc
          ((splitOnceChar ':' (line ++ ['\n'])).getD (line ++ ['\n'], [])).1
          (trim ((splitOnceChar ':' (line ++ ['\n'])).getD (line ++ ['\n'], [])).2)) := by
  unfold RequestRs.readHeadersAux
  rw [append_cons_isEmpty]
  simp only [Bool.false_eq_true, if_false, readLine_append line rest hnl, if_neg hne]
  cases f <;> rfl

theorem readHeadersAux_stop (rest : RString) (acc : List (RString × RString)) (f : Nat) :
    RequestRs.readHeadersAux (f + 1) ('\r' :: '\n' :: rest) acc = some (acc, rest) := by
  unfold RequestRs.readHeadersAux
  have hrl : readLine ('\r' :: '\n' :: rest) = (str "\r\n", rest) := by
    simp [readLine]
    rfl
  simp [hrl]

/-- Parsing a well-formed 200 response whose only header is
`Transfer-Encoding: chunked` and whose body is the chunked wire encoding of
any chunk list yields the concatenated chunk data. -/
theorem parse_chunked_general (chunks : List RString) :
    (RequestRs.parse_http_response
        (str "HTTP/1.1 200 OK\r\nTransfer-Encoding: chunked\r\n\r\n" ++
          serializeChunks chunks)).map
      RequestRs.HTTPResponse.data = some chunks.flatten := by
  have hsplit : str "HTTP/1.1 200 OK\r\nTransfer-Encoding: chunked\r\n\r\n" ++
        serializeChunks chunks
      = (str "HTTP/1.1 200 OK\r") ++ '\n' ::
          ((str "Transfer-Encoding: chunked\r") ++ '\n' ::
            ('\r' :: '\n' :: serializeChunks chunks)) := rfl
  unfold RequestRs.parse_http_response
  rw [hsplit, readLine_append _ _ (by decide)]
  have hparts : splitOnChar ' ' ((str "HTTP/1.1 200 OK\r") ++ ['\n'])
      = [str "HTTP/1.1", str "200", str "OK\r\n"] := by decide
  simp only [hparts]
  rw [if_neg (by decide)]
  have hrest : ((str "Transfer-Encoding: chunked\r") ++ '\n' ::
      ('\r' :: '\n' :: serializeChunks chunks)).length + 1
      = ((serializeChunks chunks).length + 29) + 1 + 1 := by
    simp [str]
  rw [hrest,
    readHeadersAux_step _ _ _ _ (by decide) (by decide),
    readHeadersAux_stop]
  have hinsert : RequestRs.headersInsert []
      ((splitOnceChar ':' ((str "Transfer-Encoding: chunked\r") ++ ['\n'])).getD
        ((str "Transfer-Encoding: chunked\r") ++ ['\n'], [])).1
      (trim ((splitOnceChar ':' ((str "Transfer-Encoding: chunked\r") ++ ['\n'])).getD
        ((str "Transfer-Encoding: chunked\r") ++ ['\n'], [])).2)
      = [(str "Transfer-Encoding", str "chunked")] := by decide
  rw [hinsert]
  have hte : RequestRs.headersGet [(str "Transfer-Encoding", str "chunked")]
      (str "Transfer-Encoding") = some (str "chunked") := by decide
  have hce : RequestRs.headersGet [(str "Transfer-Encoding", str "chunked")]
      (str "Content-Encoding") = none := by decide
  have hdec : RequestRs.chunkedDecode (serializeChunks chunks) = some chunks.flatten :=
    chunkedLoopAux_serialize chunks _ (by omega)
  simp only [hte, hce, if_pos rfl, hdec]
  rfl

end HeaderLoopLemmas

section SendTheoremGround

/-- The `Request::send`-level redirect bound: with a well-formed start URL
and a script whose first five responses are well-formed redirects, `send`
ends in the "Exceeded maximum redirect count." panic, returning no
response. -/
theorem send_too_many_redirects (url : ReqUri.URI)
    (script : List (Option RequestRs.HTTPResponse))
    (hauth : url.authority.isSome = true)
    (hsch : url.scheme = ReqUri.Scheme.HTTPS ∨ url.scheme = ReqUri.Scheme.HTTP)
    (hlen : 5 ≤ script.length)
    (hred : ∀ i, i < 5 → ∀ r, script.get? i = some r → RequestRs.wellFormedRedirect r) :
    RequestRs.send url script = .panicTooManyRedirects := by
  obtain ⟨a, ha⟩ := Option.isSome_iff_exists.mp hauth
  have hbdh : RequestRs.build_default_headers url = some
      [(str "Host", a.host), (str "Connection", str "close"),
       (str "User-Agent", str "Bored Browser"),
       (str "Accept-Encoding", str "gzip")] := by
    simp [RequestRs.build_default_headers, ha]
  unfold RequestRs.send
  rw [hbdh]
  exact sendLoop_redirect_bound script _ 0 (by omega) (by simpa using hlen)
    (by simpa using hred) hauth hsch

end SendTheoremGround

theorem c3Resp_wellFormed : RequestRs.wellFormedRedirect (some c3Resp) := by
  refine ⟨c3Resp, rfl, by decide, by decide, ?_⟩
  intro q
  refine ⟨{ q with url := c3RedirURI }, ?_, rfl, Or.inr rfl⟩
  unfold RequestRs.build_request_from_redirect_response
  simp only [show RequestRs.headersGet c3Resp.headers (str "Location")
      = some (str "http://other.example/y") from by decide]
  rw [if_pos (by decide)]
  rw [show ReqUri.URI.parse (str "http://other.example/y") = some c3RedirURI from by decide]
  rfl

theorem c3Script_red :
    ∀ i, i < 5 → ∀ r, c3Script.get? i = some r → RequestRs.wellFormedRedirect r := by
  intro i hi r hr
  interval_cases i <;>
    (simp only [c3Script, List.get?] at hr
     injection hr with hr
     rw [← hr]
     exact c3Resp_wellFormed)

section ClaimTheorems

/-! ## The claims -/

/-- C1 (counterexample): the claim says the identifier parser fails with a
`MalformedIdentifier` error on every input with no scheme-delimiting colon;
but `URI::parse` of `src/uri.rs` returns a plain `URI` (there is no error
type at all), and on `no-colon-here` it succeeds with the fallback scheme
http, hostname `no-colon-here`, path `/`, port `80`. -/
theorem c1_counterexample :
    UriRs.URI.parse (str "no-colon-here") =
      some { scheme := .HTTP, hostname := str "no-colon-here",
             path := str "/", port := str "80" } := by
  decide

/-- C1 (amended): `URI::parse` never returns a `MalformedIdentifier` error.
Every input that does not match the scheme regexp parses successfully with
the fallback scheme http; a parse failure (the `assert!(scheme_found)`
panic) can only happen on inputs that do match the scheme regexp (e.g.
`view-source:` wrapping an unrecognized scheme). -/
theorem c1_amended :
    (∀ s : RString, UriRs.scheme_regexp_matches s = false →
      ∃ u, UriRs.URI.parse s = some u ∧ u.scheme = UriRs.URIScheme.HTTP) ∧
    (∀ s : RString, UriRs.URI.parse s = none →
      UriRs.scheme_regexp_matches s = true) := by
  constructor
  · intro s h
    exact ⟨UriRs.URI.parse_tail (str "http") s, uri_parse_no_regexp s h,
      uri_parse_tail_http_scheme s⟩
  · exact uri_parse_none_imp_regexp

/-- C1 (witness): the amended claim at the concrete input `no-colon-here`. -/
theorem c1_witness :
    ∃ u, UriRs.URI.parse (str "no-colon-here") = some u ∧
      u.scheme = UriRs.URIScheme.HTTP :=
  c1_amended.1 (str "no-colon-here") (by decide)

/-- C2 (counterexample): the claim says header values do not influence the
cache fingerprint; but `hash_from` of `src/cache.rs` feeds every header
`"{key}: {value}"` into the SHA-256 hasher, so two requests identical
except for one header value have different fingerprints. -/
theorem c2_counterexample :
    c2ReqA.url = c2ReqB.url ∧ c2ReqA.method = c2ReqB.method ∧
    c2ReqA.http_version = c2ReqB.http_version ∧ c2ReqA.data = c2ReqB.data ∧
    CacheRs.hash_from c2ReqA ≠ CacheRs.hash_from c2ReqB := by
  refine ⟨rfl, rfl, rfl, rfl, ?_⟩
  decide

/-- C2 (amended): the fingerprint is the hex-encoded SHA-256 of the URL's
`as_str` bytes (path plus authority host and port) followed by each header
rendered as `"{key}: {value}"` in iteration order; only for a headerless
request is it the hash of the URL part alone, and header values do change
the fingerprint.  (The two concrete digests can be checked externally:
they are SHA-256 of `/index.htmlexample.org80` and of
`/index.htmlexample.org80Accept-Encoding: gzip`.) -/
theorem c2_amended :
    (∀ req : RequestRs.HTTPRequest, req.headers = [] →
      CacheRs.hash_from req = hexUpper (sha256 (utf8Bytes req.url.as_str))) ∧
    CacheRs.hash_from c2ReqNoHeaders =
      str "9E5C2726991A963BE53D9BEED969A516BCD6191BDB9FA62F193DB01A61635EA7" ∧
    CacheRs.hash_from c2ReqA =
      str "4125BD41F0CAAE7A82DAE2C3C4D99ED8A52EFC33FF51C45427E1B6FBC708CC9E" ∧
    CacheRs.hash_from c2ReqA ≠ CacheRs.hash_from c2ReqNoHeaders := by
  refine ⟨?_, by decide, by decide, by decide⟩
  intro req h
  simp [CacheRs.hash_from, h]

/-- C2 (witness): the amended claim's headerless case at a concrete
request. -/
theorem c2_witness :
    CacheRs.hash_from c2ReqNoHeaders =
      hexUpper (sha256 (utf8Bytes c2ReqNoHeaders.url.as_str)) :=
  c2_amended.1 c2ReqNoHeaders rfl

/-- C3 (witness): feeding six consecutive `301`s (with well-formed absolute
Locations) terminates in the `TooManyRedirects` panic; only five responses
are ever consumed. -/
theorem c3_witness : RequestRs.send c3Url c3Script = .panicTooManyRedirects :=
  send_too_many_redirects c3Url c3Script rfl (Or.inr rfl) (by decide) c3Script_red

/-- C4: redirect target resolution of
`Request::build_request_from_redirect_response`: an absolute (`http`-
prefixed) `Location` re-parses wholesale into the new Identifier regardless
of the original request; a relative `Location` against an empty path is
taken as-is; against a non-empty path (with a last `/` at index `i`) it is
spliced after the path truncated at that `/` — and concretely the directory
of `/a/b/c` is `/a/b`, so `/y` yields `/a/b/y` — with no `.`/`..`
normalization anywhere. -/
theorem c4_redirect_resolution (request : RequestRs.HTTPRequest)
    (response : RequestRs.HTTPResponse) (location : RString)
    (hloc : RequestRs.headersGet response.headers (str "Location") = some location) :
    ((str "http").isPrefixOf location = true →
      RequestRs.build_request_from_redirect_response request response =
        (ReqUri.URI.parse location).map
          (fun new_url => { request with url := new_url })) ∧
    ((str "http").isPrefixOf location = false → request.url.path = [] →
      RequestRs.build_request_from_redirect_response request response =
        some { request with url := { request.url with path := location } }) ∧
    ((str "http").isPrefixOf location = false →
      ∀ i, RequestRs.rfindChar '/' request.url.path = some i →
      RequestRs.build_request_from_redirect_response request response =
        some { request with url :=
          { request.url with path := request.url.path.take i ++ location } }) ∧
    (RequestRs.rfindChar '/' (str "/a/b/c") = some 4 ∧
      (str "/a/b/c").take 4 ++ str "/y" = str "/a/b/y") := by
  refine ⟨?_, ?_, ?_, by decide, by decide⟩
  · intro habs
    unfold RequestRs.build_request_from_redirect_response
    simp only [hloc]
    rw [if_pos (show (ReqUri.Scheme.HTTP.as_str).isPrefixOf location = true from habs)]
  · intro habs hpath
    unfold RequestRs.build_request_from_redirect_response
    simp only [hloc]
    rw [if_neg (show ¬ (ReqUri.Scheme.HTTP.as_str).isPrefixOf location = true by
      simp only [show ReqUri.Scheme.HTTP.as_str = str "http" from rfl, habs]
      simp)]
    rw [if_pos (by simp [hpath])]
  · intro habs i hi
    unfold RequestRs.build_request_from_redirect_response
    simp only [hloc]
    rw [if_neg (show ¬ (ReqUri.Scheme.HTTP.as_str).isPrefixOf location = true by
      simp only [show ReqUri.Scheme.HTTP.as_str = str "http" from rfl, habs]
      simp)]
    have hne : request.url.path.isEmpty = false := by
      cases hp : request.url.path
      · rw [hp] at hi
        simp [RequestRs.rfindChar] at hi
      · rfl
    rw [if_neg (by simp [hne])]
    simp only [hi]

/-- C4 (witness): relative `Location: /y` against current path `/a/b/c`
produces path `/a/b/y`. -/
theorem c4_witness :
    RequestRs.build_request_from_redirect_response c4Req c4Resp =
      some { c4Req with url := { c4Req.url with path := str "/a/b/y" } } := by
  have h := (c4_redirect_resolution c4Req c4Resp (str "/y") (by decide)).2.2.1
    (by decide) 4 (by decide)
  rw [h]
  decide

/-- C5: chunked-transfer decoding.  For every list of chunks, parsing a
response with a `Transfer-Encoding: chunked` header whose body is the
chunked wire encoding (hex size line, data, 2-byte terminator each, closed
by the zero-size chunk line) yields the concatenated chunk data; in
particular `"4\r\nWiki\r\n5\r\npedia\r\n0\r\n\r\n"` decodes to
`"Wikipedia"`, both through the standalone decoder and through the full
response parser. -/
theorem c5_chunked_decode :
    (∀ chunks : List RString,
      (RequestRs.parse_http_response
          (str "HTTP/1.1 200 OK\r\nTransfer-Encoding: chunked\r\n\r\n" ++
            serializeChunks chunks)).map
        RequestRs.HTTPResponse.data = some chunks.flatten) ∧
    RequestRs.chunkedDecode (str "4\r\nWiki\r\n5\r\npedia\r\n0\r\n\r\n") =
      some (str "Wikipedia") ∧
    (RequestRs.parse_http_response
        (str "HTTP/1.1 200 OK\r\nTransfer-Encoding: chunked\r\n\r\n4\r\nWiki\r\n5\r\npedia\r\n0\r\n\r\n")).map
      RequestRs.HTTPResponse.data = some (str "Wikipedia") :=
  ⟨parse_chunked_general, by decide, by decide⟩

/-- C6 (counterexample): the claim says parsing fails for every status line
whose first token does not start with `HTTP/`, and that the version is the
suffix of the first token after `HTTP/`; but the source asserts
`status_parts[0].contains("HTTP/")` (substring, not prefix), so
`xHTTP/1.1 200 OK` parses successfully, and it strips the `HTTP/` prefix
repeatedly (`trim_start_matches`), so `HTTP/HTTP/1.1` yields version `1.1`
rather than the suffix `HTTP/1.1`. -/
theorem c6_counterexample :
    (RequestRs.parse_http_response (str "xHTTP/1.1 200 OK\r\n\r\n")).isSome = true ∧
    (RequestRs.parse_http_response (str "HTTP/HTTP/1.1 200 OK\r\n\r\n")).map
      RequestRs.HTTPResponse.http_version = some (str "1.1") := by
  constructor <;> decide

/-- C6 (amended): response parsing fails whenever the first space-separated
token of the status line does not CONTAIN `HTTP/`; the version is the first
token with every leading `HTTP/` prefix stripped; a second token that does
not parse as an unsigned 16-bit integer is a failure; and duplicate header
names overwrite (mapping insert, last wins), end-to-end as well. -/
theorem c6_amended :
    (∀ input : RString,
      containsSubstr (str "HTTP/") ((splitOnChar ' ' (readLine input).1).getD 0 []) = false →
      RequestRs.parse_http_response input = none) ∧
    (∀ input : RString, ∀ p1,
      (splitOnChar ' ' (readLine input).1).get? 1 = some p1 → parseU16 p1 = none →
      RequestRs.parse_http_response input = none) ∧
    trimStartMatches (str "HTTP/") (str "HTTP/HTTP/1.1") = str "1.1" ∧
    (∀ hs k v, RequestRs.headersGet (RequestRs.headersInsert hs k v) k = some v) ∧
    (RequestRs.parse_http_response (str "HTTP/1.1 200 OK\r\nA: 1\r\nA: 2\r\n\r\n")).map
      (fun r => RequestRs.headersGet r.headers (str "A")) = some (some (str "2")) := by
  refine ⟨?_, ?_, by decide, fun hs k v => headersGet_insert hs k v, by decide⟩
  · intro input h
    unfold RequestRs.parse_http_response
    rw [if_pos
      (show ¬ containsSubstr (str "HTTP/")
          ((splitOnChar ' ' (readLine input).1).getD 0 []) = true by
        simp only [h]
        simp)]
  · intro input p1 hp1 hu
    unfold RequestRs.parse_http_response
    by_cases hc : containsSubstr (str "HTTP/")
        ((splitOnChar ' ' (readLine input).1).getD 0 []) = true
    · rw [if_neg
        (show ¬¬ containsSubstr (str "HTTP/")
            ((splitOnChar ' ' (readLine input).1).getD 0 []) = true by
          simp only [hc]
          simp)]
      simp only [hp1, hu]
    · rw [if_pos (by simpa using hc)]

/-- C6 (witness): the amended claim's failure case at the concrete status
line `FTP/1.1 200 OK` (first token contains no `HTTP/`). -/
theorem c6_witness :
    RequestRs.parse_http_response (str "FTP/1.1 200 OK\r\n\r\n") = none :=
  c6_amended.1 (str "FTP/1.1 200 OK\r\n\r\n") (by decide)

/-- C7 (counterexample): the claim's authority-presence invariant says an
authority (host and port) is present whenever the scheme is http; but
`URI::parse` of `src/uri.rs` maps `http://` to an http identifier with an
EMPTY hostname (the struct has no option-valued authority at all). -/
theorem c7_counterexample :
    UriRs.URI.parse (str "http://") =
      some { scheme := .HTTP, hostname := [], path := str "/", port := str "80" } := by
  decide

/-- C7 (amended): parsing is deterministic (it is a pure function of the
input), and the half of the invariant that holds: identifiers with scheme
`File` or `Data` never carry an authority (hostname and port are empty).
The converse fails (see the counterexample). -/
theorem c7_amended :
    (∀ s : RString, UriRs.URI.parse s = UriRs.URI.parse s) ∧
    (∀ s u, UriRs.URI.parse s = some u →
      (u.scheme = UriRs.URIScheme.File ∨ u.scheme = UriRs.URIScheme.Data) →
      u.hostname = [] ∧ u.port = []) := by
  refine ⟨fun s => rfl, ?_⟩
  intro s u hp hs
  obtain ⟨sch, rest, hreach, hu⟩ := uri_parse_shape s u hp
  subst hu
  exact uri_parse_tail_file_data sch rest hreach hs

/-- C7 (witness): the amended claim at the concrete input
`data:text/html,hi`. -/
theorem c7_witness :
    ({ scheme := .Data, hostname := [], path := str "text/html,hi",
       port := [] } : UriRs.URI).hostname = [] ∧
    ({ scheme := .Data, hostname := [], path := str "text/html,hi",
       port := [] } : UriRs.URI).port = [] :=
  c7_amended.2 (str "data:text/html,hi") _ (by decide) (Or.inr rfl)

/-- C8 (counterexample): the claim's round trip fails on re-insert with a
shorter body: the body file is opened with `write(true).create(true)` but
no `truncate`, so inserting `hello world` (11 bytes) and then `bye`
(3 bytes) under the same fingerprint makes lookup return the spliced
`byelo world`, not `bye`. -/
theorem c8_counterexample :
    CacheRs.Cache.extract c8St2.1 c8St2.2 c8Req = .ok (utf8Bytes (str "byelo world")) ∧
    utf8Bytes (str "byelo world") ≠ utf8Bytes (str "bye") :=
  ⟨rfl, by decide⟩

/-- C8 (amended): insert-then-lookup returns the inserted body provided the
fingerprint's body file held no longer content beforehand (in particular
from a fresh fingerprint); and a fingerprint matched by no index item is a
recoverable `NotFound` miss. -/
theorem c8_amended :
    (∀ (c : CacheRs.Cache) (d : CacheRs.Disk) (req : RequestRs.HTTPRequest)
        (body : List Nat) (e : Nat),
      req.method = RequestRs.HTTPMethod.GET →
      ((d.read (CacheRs.hash_from req)).getD []).length ≤ body.length →
      CacheRs.Cache.extract (CacheRs.Cache.insert c d req body e).1
        (CacheRs.Cache.insert c d req body e).2 req = .ok body) ∧
    (∀ (c : CacheRs.Cache) (d : CacheRs.Disk) (req : RequestRs.HTTPRequest),
      req.method = RequestRs.HTTPMethod.GET →
      (∀ it ∈ c.items, it.path_string ≠ CacheRs.hash_from req) →
      CacheRs.Cache.extract c d req = .error .NotFound) :=
  ⟨fun c d req body e hm ho => cache_insert_then_extract c d req body e hm ho,
   fun c d req hm ha => cache_extract_not_found c d req hm ha⟩

/-- C8 (witness): the fresh round trip — insert `hello world` into the
empty cache, extract it back — and implicitly the `NotFound` branch via the
amended theorem's hypotheses. -/
theorem c8_witness :
    CacheRs.Cache.extract c8St1.1 c8St1.2 c8Req = .ok (utf8Bytes (str "hello world")) :=
  c8_amended.1 c8EmptyCache c8EmptyDisk c8Req (utf8Bytes (str "hello world")) 0
    rfl (by decide)

/-- C9 (counterexample): the claim says parsing fails when the host-part
has a `:` followed by a non-numeric port; but `src/uri.rs` stores the port
as a plain string with no numeric validation, so `http://h:abc/x` parses
successfully with port `abc`. -/
theorem c9_counterexample :
    UriRs.URI.parse (str "http://h:abc/x") =
      some { scheme := .HTTP, hostname := str "h", path := str "/x",
             port := str "abc" } := by
  decide

/-- C9 (amended): no port validation happens (the port substring is kept
verbatim); what does hold: every http-family identifier's path begins with
`/` (it is re-prefixed after splitting), `http://h/` and `http://h` both
give path `/` with default port `80`, `https://h` defaults to port `443`,
and `http://h:9090/x` gives port `9090` and path `/x`. -/
theorem c9_amended :
    (∀ s u, UriRs.URI.parse s = some u →
      (u.scheme = UriRs.URIScheme.HTTP ∨ u.scheme = UriRs.URIScheme.HTTPS ∨
       u.scheme = UriRs.URIScheme.ViewSourceHTTP ∨
       u.scheme = UriRs.URIScheme.ViewSourceHTTPS) →
      ∃ t, u.path = '/' :: t) ∧
    (UriRs.URI.parse (str "http://h/") =
      some { scheme := .HTTP, hostname := str "h", path := str "/", port := str "80" } ∧
     UriRs.URI.parse (str "http://h") =
      some { scheme := .HTTP, hostname := str "h", path := str "/", port := str "80" }) ∧
    UriRs.URI.parse (str "https://h") =
      some { scheme := .HTTPS, hostname := str "h", path := str "/", port := str "443" } ∧
    UriRs.URI.parse (str "http://h:9090/x") =
      some { scheme := .HTTP, hostname := str "h", path := str "/x", port := str "9090" } := by
  refine ⟨?_, ⟨by decide, by decide⟩, by decide, by decide⟩
  intro s u hp hs
  obtain ⟨sch, rest, hreach, hu⟩ := uri_parse_shape s u hp
  subst hu
  exact uri_parse_tail_http_path sch rest hreach hs

/-- C9 (witness): the amended path-prefix fact at the concrete input
`http://h:9090/x`. -/
theorem c9_witness :
    ∃ t, ({ scheme := .HTTP, hostname := str "h", path := str "/x",
            port := str "9090" } : UriRs.URI).path = '/' :: t :=
  c9_amended.1 (str "http://h:9090/x") _ (by decide) (Or.inl rfl)

/-- C10: the three parser copies — `URI::parse` of `src/uri.rs`,
`URL::parse` of `src/url.rs` and `parse_url` of `src/main.rs` — agree on
every input string in scheme (constructor-wise), hostname, path and port
(including agreeing on when they panic). -/
theorem c10_parser_equivalence :
    ∀ s : RString,
      (UrlRs.URL.parse s).map
        (fun u => UriRs.URI.mk u.scheme.toUriRs u.hostname u.path u.port) =
        UriRs.URI.parse s ∧
      (MainRs.parse_url s).map
        (fun u => UriRs.URI.mk u.scheme.toUriRs u.hostname u.path u.port) =
        UriRs.URI.parse s :=
  fun s => ⟨url_parse_eq_uri_parse s, main_parse_eq_uri_parse s⟩

end ClaimTheorems
